import Mathlib

/-!
# MEGAsync: the application core of `Source/MEGASync/MegaApplication.cpp`

A shallow embedding of the event handlers of `MegaApplication`: the transfer
statistics (`onTransferStart`, `onTransferUpdate`, `onTransferFinish`), the
upload queue (`processUploadQueue`, `shellUpload`, `showUploadDialog`), the
node-update handler (`onNodesUpdate`), the start of the configured syncs
(`startSyncs`), the restart (`onUpdateCompleted`, `rebootApplication`) and the
session (`init`, `loggedIn`, `unlink`, `onRequestFinish`).

The application object is a record of its member fields.  Every call onto a
collaborator (the SDK, the uploader, the dialogs, the tray icon, the message
boxes) is appended to the field `effects`, oldest first, so that a handler is a
function from the application state to the application state.  The trace
output written to `cout` is left out.
-/

namespace MEGASync

/-! ## Values -/

/-- A `QString`; `none` is the null string (`QString()`, or `fromUtf8` of a null pointer). -/
abbrev QString := Option String

/-- A node handle of the SDK. -/
abbrev Handle := Nat

/-- An argument given to `QString::arg`. -/
inductive Arg where
  | str (s : QString)
  | num (n : Int)
deriving DecidableEq, Repr

/-- A user-visible text `tr(template).arg(a1).arg(a2)...`: the template as
written in the source, and the arguments in the order they are applied. -/
structure Text where
  template : String
  args : List Arg
deriving DecidableEq, Repr

/-- The text `tr(s)` without arguments. -/
def tr (s : String) : Text := ⟨s, []⟩

/-- The text with one more argument applied: `t.arg(a)`. -/
def Text.arg (t : Text) (a : Arg) : Text := ⟨t.template, t.args ++ [a]⟩

/-- The direction of a transfer (`MegaTransfer::getType`). -/
inductive TransferType where
  | TYPE_DOWNLOAD
  | TYPE_UPLOAD
deriving DecidableEq, Repr

/-- What the handlers read from a `MegaTransfer`. -/
structure MegaTransfer where
  type : TransferType
  totalBytes : Int
  deltaSize : Int
  speed : Int
  transferredBytes : Int
  tag : Int
  path : QString
  fileName : QString
  nodeHandle : Handle
deriving DecidableEq, Repr

/-- What the handlers read from a `MegaError`. -/
structure MegaError where
  errorCode : Int
deriving DecidableEq, Repr

/-- The error code of a successful reply, `MegaError::API_OK`. -/
def API_OK : Int := 0

/-- The type of a remote node. -/
inductive NodeType where
  | FILENODE
  | FOLDERNODE
  | ROOTNODE
  | INCOMINGNODE
  | RUBBISHNODE
  | MAILNODE
deriving DecidableEq, Repr

/-- A `LocalNode` of a synced folder with its chain of `parent` pointers; a
`root` is a local node whose `parent` is null. -/
inductive LocalNode where
  | root (localname : String)
  | child (localname : String) (parent : LocalNode)
deriving DecidableEq, Repr

/-- What the handlers read from a remote `Node`. -/
structure Node where
  nodehandle : Handle
  type : NodeType
  tag : Int
  removed : Bool
  syncdeleted : Bool
  localnode : Option LocalNode
  displayname : QString
deriving DecidableEq, Repr

/-- One configured synced folder of the preferences: what `getLocalFolder(i)`,
`getMegaFolderHandle(i)` and `getSyncName(i)` return for its index. -/
structure SyncedFolder where
  localFolder : QString
  megaFolderHandle : Handle
  syncName : QString
deriving DecidableEq, Repr

/-- The part of the `Preferences` object that the handlers read and write. -/
structure Preferences where
  logged : Bool
  showNotifications : Bool
  uploadFolder : Handle
  syncedFolders : List SyncedFolder
deriving DecidableEq, Repr

/-- The icon of a message (`QSystemTrayIcon::MessageIcon`, `QMessageBox` kind). -/
inductive MessageIcon where
  | Information
  | Warning
  | Critical
deriving DecidableEq, Repr

/-- The actions of the tray menu. -/
inductive MenuAction where
  | exitAction
  | aboutAction
  | settingsAction
  | pauseAction
  | resumeAction
  | importLinksAction
deriving DecidableEq, Repr

/-- A call onto a collaborator made by the handlers of the session: the
request replies, `init`, `loggedIn`, `unlink` and the restart. -/
inductive SessionEffect where
  /-- The call `infoDialog->setUsage(storage_max, storage_used)`. -/
  | setUsage (totalStorage usedStorage : Int)
  /-- The call `infoDialog->setPaused(flag)`. -/
  | setPaused (flag : Bool)
  | newInfoDialog
  | deleteInfoDialog
  /-- The call `trayIcon->setContextMenu(NULL)`. -/
  | setContextMenuNull
  /-- The call `trayIcon->setContextMenu(trayMenu)`. -/
  | setContextMenu
  | trayIconShow
  | trayMenuDeleteLater
  | newTrayMenu
  | addAction (a : MenuAction)
  | connectTrayIconActivated
  | newSetupWizard
  | setupWizardExec
  /-- The call `megaApi->fastLogin(email, emailHash, privatePw)`. -/
  | fastLogin (email emailHash privatePw : QString)
  | fetchNodes
  | getAccountDetails
  /-- The call `megaApi->logout()`. -/
  | logout
  /-- The call `megaApi->setUploadLimit(limit)`. -/
  | setUploadLimit (limit : Int)
  /-- The call `Utils::enableTrayIcon(fileName)`. -/
  | enableTrayIcon
  | startShellDispatcher
  | stopShellDispatcher
  | newHTTPServer (port : Nat)
  | deleteHttpServer
  /-- The call `QApplication::clipboard()->setText(link)`. -/
  | clipboardSetText (link : QString)
  /-- The call `QProcess::startDetached(app, arguments, wd)` with the path, the
  arguments and the working directory of the running application. -/
  | startDetached
  /-- The call `QApplication::exit()`. -/
  | applicationExit
deriving DecidableEq, Repr

/-- A call onto a collaborator of the application. -/
inductive Effect where
  /-- The call `trayIcon->showMessage(title, message, icon, msecs)`; `title = none` is the
  default title of the handler, `msecs = none` the default duration. -/
  | trayMessage (icon : MessageIcon) (title : Option QString) (message : Text)
      (msecs : Option Nat)
  /-- The calls `QMessageBox::information`, `QMessageBox::warning`, `QMessageBox::critical`. -/
  | messageBox (icon : MessageIcon) (title : Option QString) (message : Text)
  | setIcon (resource : String)
  | removeAction (a : MenuAction)
  | insertAction (before a : MenuAction)
  | singleShot (msec : Nat) (slot : String)
  /-- The call `Utils::verifySyncedFolderLimits(path)`. -/
  | verifySyncedFolderLimits (path : QString)
  /-- The call `uploader->upload(path, node)`. -/
  | upload (path : QString) (node : Handle)
  /-- The call `megaApi->syncFolder(localFolder, node)`. -/
  | syncFolder (localFolder : QString) (node : Handle)
  /-- The `delete` of an active sync. -/
  | deleteSync (sync : Nat)
  /-- The call `WindowsUtils::notifyItemChange(path)`. -/
  | notifyItemChange (path : QString)
  | newUploadToMegaDialog
  | deleteUploadFolderSelector
  | selectorShowMinimized
  | selectorSetWindowStateActive
  | selectorShowNormal
  | selectorRaise
  | selectorActivateWindow
  | selectorExec
  | addRecentFile (fileName : QString) (handle : Handle) (localPath : QString)
  | setTransferCount (totalDownloads totalUploads queuedDownloads queuedUploads : Int)
  | setTotalTransferSize (totalDownloadSize totalUploadSize : Int)
  | setTransferredSize (totalDownloadedSize totalUploadedSize : Int)
  | setTransferSpeeds (downloadSpeed uploadSpeed : Int)
  | setTransfer (type : TransferType) (fileName : QString) (transferredBytes totalBytes : Int)
  | updateDialog
  /-- A call made by the session handlers. -/
  | session (call : SessionEffect)
deriving DecidableEq, Repr

/-- The collaborators that the handlers only query: the SDK's view of the
remote tree, the local file system and the helpers of `Utils` and
`Preferences`.  Two nodes are the same object when their handles are equal. -/
structure Env where
  getNodeByHandle : Handle → Option Node
  getParentNode : Node → Option Node
  getRubbishNode : Option Node
  /-- The call `QFileInfo(path).isDir()`. -/
  isDir : QString → Bool
  /-- The call `Utils::verifySyncedFolderLimits(path)`. -/
  verifySyncedFolderLimits : QString → Bool
  /-- The call `QFileInfo(path).fileName()`. -/
  fileName : QString → QString
  MAX_FOLDERS_IN_NEW_SYNC_FOLDER : Int
  MAX_FILES_IN_NEW_SYNC_FOLDER : Int

/-- What `request->getAccountDetails()` gives for an account-details reply. -/
structure AccountDetails where
  pro_level : Int
  storage_max : Int
  storage_used : Int
  transfer_max : Int
  transfer_own_used : Int
deriving DecidableEq, Repr

/-- The credentials, the upload limit and the cached account figures that the
`Preferences` object stores. -/
structure AccountPreferences where
  email : QString
  emailHash : QString
  privatePw : QString
  uploadLimitKB : Int
  accountType : Int
  totalStorage : Int
  usedStorage : Int
  totalBandwidth : Int
  usedBandwidth : Int
deriving DecidableEq, Repr

/-- The member fields of `MegaApplication`.  The counters are declared in
`MegaApplication.h`; they are signed integers, taken here without a bound.
A pointer member that is only tested for null is a `Bool` (`true`: non-null). -/
structure MegaApplication where
  queuedDownloads : Int
  queuedUploads : Int
  totalUploads : Int
  totalDownloads : Int
  totalDownloadSize : Int
  totalUploadSize : Int
  totalDownloadedSize : Int
  totalUploadedSize : Int
  uploadSpeed : Int
  downloadSpeed : Int
  reboot : Bool
  paused : Bool
  trayIcon : Bool
  infoDialog : Bool
  uploadFolderSelector : Bool
  uploadQueue : List QString
  /-- The map `uploadLocalPaths` from the tag of a finished upload to its local path. -/
  uploadLocalPaths : Int → Option QString
  /-- The active syncs of the SDK, `megaApi->getActiveSyncs()`. -/
  activeSyncs : List Nat
  preferences : Preferences
  effects : List Effect
  trayMenu : Bool := false
  httpServer : Bool := false
  setupWizard : Bool := false
  /-- A further part of the `Preferences` object: the stored credentials, the
  upload limit and the cached account figures. -/
  accountPreferences : AccountPreferences := ⟨none, none, none, 0, 0, 0, 0, 0, 0⟩

/-- The fields as the constructor `MegaApplication::MegaApplication` leaves
them (lines 29-30 and 64-86) before it calls `init`, for the given preferences. -/
def constructed (preferences : Preferences) : MegaApplication where
  queuedDownloads := 0
  queuedUploads := 0
  totalUploads := 0
  totalDownloads := 0
  totalDownloadSize := 0
  totalUploadSize := 0
  totalDownloadedSize := 0
  totalUploadedSize := 0
  uploadSpeed := 0
  downloadSpeed := 0
  reboot := false
  paused := false
  trayIcon := true
  infoDialog := false
  uploadFolderSelector := false
  uploadQueue := []
  uploadLocalPaths := fun _ => none
  activeSyncs := []
  preferences := preferences
  effects := []

/-- Record one call onto a collaborator. -/
def emit (app : MegaApplication) (e : Effect) : MegaApplication :=
  { app with effects := app.effects ++ [e] }

/-- Record several calls onto collaborators, in order. -/
def emitAll (app : MegaApplication) (es : List Effect) : MegaApplication :=
  { app with effects := app.effects ++ es }

/-! ## Messages -/

/-- The function `MegaApplication::showInfoMessage`. -/
def showInfoMessage (app : MegaApplication) (message : Text) (title : Option QString) :
    MegaApplication :=
  if app.trayIcon then emit app (.trayMessage .Information title message none)
  else emit app (.messageBox .Information title message)

/-- The function `MegaApplication::showWarningMessage`. -/
def showWarningMessage (app : MegaApplication) (message : Text) (title : Option QString) :
    MegaApplication :=
  if !app.preferences.showNotifications then app
  else if app.trayIcon then emit app (.trayMessage .Warning title message none)
  else emit app (.messageBox .Warning title message)

/-- The function `MegaApplication::showErrorMessage`. -/
def showErrorMessage (app : MegaApplication) (message : Text) (title : Option QString) :
    MegaApplication :=
  emit app (.messageBox .Critical title message)

/-- The function `MegaApplication::showNotificationMessage`. -/
def showNotificationMessage (app : MegaApplication) (message : Text) (title : Option QString) :
    MegaApplication :=
  if !app.preferences.showNotifications then app
  else if app.trayIcon then emit app (.trayMessage .Information title message (some 8000))
  else app

/-- The function `MegaApplication::showSyncedIcon`. -/
def showSyncedIcon (app : MegaApplication) : MegaApplication :=
  emitAll app [.setIcon "://images/app_ico.ico", .removeAction .resumeAction,
    .insertAction .importLinksAction .pauseAction]

/-- The function `MegaApplication::showSyncingIcon`. -/
def showSyncingIcon (app : MegaApplication) : MegaApplication :=
  emitAll app [.setIcon "://images/tray_sync.ico", .removeAction .resumeAction,
    .insertAction .importLinksAction .pauseAction]

/-! ## The upload queue -/

/-- The loop of `processUploadQueue` (lines 222-232) over the queue `queue`,
which is the content of `uploadQueue`: each path is taken from the front of
the queue, checked, and either noted in `notUploaded` by its file name or
given to the uploader.  Returns the application and `notUploaded`. -/
def processUploadQueueLoop (env : Env) (node : Node) :
    List QString → MegaApplication → List QString → MegaApplication × List QString
  | [], app, notUploaded => ({ app with uploadQueue := [] }, notUploaded)
  | filePath :: queue, app, notUploaded =>
    let app := { app with uploadQueue := queue }
    let app := emit app (.verifySyncedFolderLimits filePath)
    if !env.verifySyncedFolderLimits filePath then
      processUploadQueueLoop env node queue app (notUploaded ++ [env.fileName filePath])
    else
      processUploadQueueLoop env node queue (emit app (.upload filePath node.nodehandle))
        notUploaded

/-- The message for one folder that was not uploaded (lines 239-242). -/
def tooLargeSingular (env : Env) (name : QString) : Text :=
  (((tr ("The folder (%1) wasn't uploaded " ++
      "because it's too large (this beta is limited to %2 folders or %3 files.")).arg
    (.str name)).arg (.num env.MAX_FOLDERS_IN_NEW_SYNC_FOLDER)).arg
    (.num env.MAX_FILES_IN_NEW_SYNC_FOLDER)

/-- The message for several folders that were not uploaded (lines 246-249). -/
def tooLargePlural (env : Env) (count : Nat) : Text :=
  (((tr ("%1 folders weren't uploaded " ++
      "because they are too large (this beta is limited to %2 folders or %3 files.")).arg
    (.num count)).arg (.num env.MAX_FOLDERS_IN_NEW_SYNC_FOLDER)).arg
    (.num env.MAX_FILES_IN_NEW_SYNC_FOLDER)

/-- The error message of `processUploadQueue` for an invalid destination (line 217). -/
def invalidDestination : Text :=
  tr "Error: Invalid destination folder. The upload has been cancelled"

/-- The function `MegaApplication::processUploadQueue`.  The tests `notUploaded.size()` and
`notUploaded.size()==1` with `notUploaded[0]` are the three cases of the match. -/
def processUploadQueue (env : Env) (app : MegaApplication) (nodeHandle : Handle) :
    MegaApplication :=
  match env.getNodeByHandle nodeHandle with
  | none => showErrorMessage { app with uploadQueue := [] } invalidDestination none
  | some node =>
    if node.type = .FILENODE then
      showErrorMessage { app with uploadQueue := [] } invalidDestination none
    else
      match processUploadQueueLoop env node app.uploadQueue app [] with
      | (app, []) => app
      | (app, [name]) => showInfoMessage app (tooLargeSingular env name) none
      | (app, notUploaded) => showInfoMessage app (tooLargePlural env notUploaded.length) none

/-- The five calls that bring the dialog `uploadFolderSelector` to the front
(lines 426-430 and 451-455). -/
def raiseUploadFolderSelector (app : MegaApplication) : MegaApplication :=
  emitAll app [.selectorShowMinimized, .selectorSetWindowStateActive, .selectorShowNormal,
    .selectorRaise, .selectorActivateWindow]

/-- What the dialog `uploadFolderSelector` answers when `exec` returns. -/
structure DialogResult where
  accepted : Bool
  selectedHandle : Handle
  isDefaultFolder : Bool
deriving DecidableEq, Repr

/-- The function `MegaApplication::showUploadDialog` up to its call of `exec` (lines 451-456).
`exec` runs an event loop: the handlers of the events that arrive before the
dialog is closed run on the state this function returns. -/
def showUploadDialogExec (app : MegaApplication) : MegaApplication :=
  emit (raiseUploadFolderSelector app) .selectorExec

/-- The function `MegaApplication::showUploadDialog` from the return of `exec` (lines 458-471). -/
def showUploadDialogDone (env : Env) (app : MegaApplication) (result : DialogResult) :
    MegaApplication :=
  let app :=
    if result.accepted then
      let app :=
        if result.isDefaultFolder then
          { app with preferences :=
              { app.preferences with uploadFolder := result.selectedHandle } }
        else app
      processUploadQueue env app result.selectedHandle
    else { app with uploadQueue := [] }
  let app := emit app .deleteUploadFolderSelector
  { app with uploadFolderSelector := false }

/-- The function `MegaApplication::shellUpload`, up to its return or, when it opens the
dialog, up to the call of `exec` in `showUploadDialog`; `showUploadDialogDone`
continues from there once the dialog is closed. -/
def shellUpload (env : Env) (app : MegaApplication) (newUploadQueue : List QString) :
    MegaApplication :=
  let app := { app with uploadQueue := app.uploadQueue ++ newUploadQueue }
  if app.uploadFolderSelector then raiseUploadFolderSelector app
  else
    match env.getNodeByHandle app.preferences.uploadFolder with
    | some node => processUploadQueue env app node.nodehandle
    | none =>
      let app := emit { app with uploadFolderSelector := true } .newUploadToMegaDialog
      showUploadDialogExec app

/-- The submissions to the uploader among the effects: path and destination. -/
def uploadsOf (effects : List Effect) : List (QString × Handle) :=
  effects.filterMap fun
    | .upload path node => some (path, node)
    | _ => none

/-- The folder-limit checks among the effects. -/
def limitChecksOf (effects : List Effect) : List QString :=
  effects.filterMap fun
    | .verifySyncedFolderLimits path => some path
    | _ => none

/-- The template of a text is one of the two 'too large' templates. -/
def isTooLarge (env : Env) (message : Text) : Bool :=
  message.template = (tooLargeSingular env none).template ||
  message.template = (tooLargePlural env 0).template

/-- The 'too large' messages shown to the user among the effects. -/
def tooLargeWarningsOf (env : Env) (effects : List Effect) : List Text :=
  effects.filterMap fun
    | .trayMessage _ _ message _ => if isTooLarge env message then some message else none
    | .messageBox _ _ message => if isTooLarge env message then some message else none
    | _ => none

/-- The dialogs created among the effects. -/
def dialogsCreatedOf (effects : List Effect) : Nat :=
  effects.count .newUploadToMegaDialog

/-- The warning that `processUploadQueue` owes for the excluded paths: none
when nothing was excluded, the singular text with the file name of the one
excluded path, the plural text with the number of excluded paths otherwise. -/
def expectedWarning (env : Env) (excluded : List QString) : List Text :=
  match excluded with
  | [] => []
  | [path] => [tooLargeSingular env (env.fileName path)]
  | _ => [tooLargePlural env excluded.length]

/-- The calls that the loop of `processUploadQueue` makes for a queue and a
destination: a limit check for each path, followed by its submission when the
check passes. -/
def dispatchEffects (env : Env) (node : Handle) : List QString → List Effect
  | [] => []
  | path :: queue =>
    if env.verifySyncedFolderLimits path then
      .verifySyncedFolderLimits path :: .upload path node :: dispatchEffects env node queue
    else .verifySyncedFolderLimits path :: dispatchEffects env node queue

/-- The call by which `showInfoMessage` shows a text with the default title. -/
def infoEffect (app : MegaApplication) (message : Text) : Effect :=
  if app.trayIcon then .trayMessage .Information none message none
  else .messageBox .Information none message

/-- The queued paths that the limit check excludes, in queue order. -/
def excludedPaths (env : Env) (queue : List QString) : List QString :=
  queue.filter fun path => !env.verifySyncedFolderLimits path

/-! ## Node updates -/

/-- The local path that `onNodesUpdate` builds from a local node (lines
836-846): the local names from the root of the synced folder down to the
node, joined by the local separator. -/
def localPathOf : LocalNode → String
  | .root localname => localname
  | .child localname parent => localPathOf parent ++ "\\" ++ localname

/-- The text of the notification of `onNodesUpdate` (line 875). -/
def newFilesText : Text :=
  tr "You have new or updated files in your account"

/-- The body of the loop of `onNodesUpdate` (lines 817-869) for one node;
`externalNodes` is the flag of the same name. -/
def onNodesUpdateNode (app : MegaApplication) (externalNodes : Bool) (node : Node) :
    MegaApplication × Bool :=
  let externalNodes :=
    if node.tag = 0 ∧ !node.removed ∧ !node.syncdeleted then true else externalNodes
  if !node.removed ∧ node.tag ≠ 0 ∧ !node.syncdeleted ∧ node.type = .FILENODE then
    let localPath : QString :=
      match node.localnode with
      | some l => some (localPathOf l)
      | none =>
        match app.uploadLocalPaths node.tag with
        | some path => path
        | none => none
    let app := if localPath.isSome then emit app (.notifyItemChange localPath) else app
    (emit app (.addRecentFile node.displayname node.nodehandle localPath), externalNodes)
  else (app, externalNodes)

/-- The loop of `onNodesUpdate` (lines 815-870) over the nodes of the batch. -/
def onNodesUpdateLoop : List Node → MegaApplication → Bool → MegaApplication × Bool
  | [], app, externalNodes => (app, externalNodes)
  | node :: nodes, app, externalNodes =>
    let step := onNodesUpdateNode app externalNodes node
    onNodesUpdateLoop nodes step.1 step.2

/-- The function `MegaApplication::onNodesUpdate`; `nodes = none` is the null list of a full reload. -/
def onNodesUpdate (app : MegaApplication) (nodes : Option (List Node)) : MegaApplication :=
  if !app.infoDialog then app
  else
    match nodes with
    | none => app
    | some nodes =>
      let (app, externalNodes) := onNodesUpdateLoop nodes app false
      let app := if app.infoDialog then emit app .updateDialog else app
      if externalNodes then showNotificationMessage app newFilesText none else app

/-- The notifications 'new or updated files' shown among the effects. -/
def newFilesNotificationsOf (effects : List Effect) : Nat :=
  effects.countP fun
    | .trayMessage _ _ message _ => message = newFilesText
    | .messageBox _ _ message => message = newFilesText
    | _ => false

/-- The recent-file entries added among the effects: handle and local path. -/
def recentFilesOf (effects : List Effect) : List (Handle × QString) :=
  effects.filterMap fun
    | .addRecentFile _ handle localPath => some (handle, localPath)
    | _ => none

/-- The local-change notifications among the effects. -/
def itemChangesOf (effects : List Effect) : List QString :=
  effects.filterMap fun
    | .notifyItemChange path => some path
    | _ => none

/-! ## The configured syncs -/

/-- The function `MegaApplication::stopSyncs`: every active sync is deleted; the destructor
of a sync takes it out of the list of active syncs. -/
def stopSyncs (app : MegaApplication) : MegaApplication :=
  { emitAll app (app.activeSyncs.map .deleteSync) with activeSyncs := [] }

/-- Modelled from the spec: `Preferences::removeSyncedFolder(i)` is not among
the sources; the spec has the offending folder pair "removed from persisted
configuration", the other pairs keeping their order. -/
def removeSyncedFolder (app : MegaApplication) (i : Nat) : MegaApplication :=
  { app with preferences :=
      { app.preferences with syncedFolders := app.preferences.syncedFolders.eraseIdx i } }

/-- The message for a sync whose remote folder is gone (lines 163-165). -/
def remoteMissingText (syncName : QString) : Text :=
  (tr ("Your sync \"%1\" has been disabled\n" ++
    "because the remote folder doesn't exist")).arg (.str syncName)

/-- The message for a sync whose remote folder is in the trash (lines 173-175). -/
def inTrashText (syncName : QString) : Text :=
  (tr ("Your sync \"%1\" has been disabled\n" ++
    "because the remote folder is in your Trash folder")).arg (.str syncName)

/-- The message for a sync whose local folder is gone (lines 184-186). -/
def localMissingText (syncName : QString) : Text :=
  (tr ("Your sync \"%1\" has been disabled\n" ++
    "because the local folder doesn't exist")).arg (.str syncName)

/-- The loop of `startSyncs` (lines 158-194) from the index `i`.  A removed
entry leaves the index where it is (`i--; continue;` and then `i++`). -/
def startSyncsLoop (env : Env) (i : Nat) (app : MegaApplication) : MegaApplication :=
  if h : i < app.preferences.syncedFolders.length then
    let folder := app.preferences.syncedFolders[i]
    match env.getNodeByHandle folder.megaFolderHandle with
    | none =>
      let app := showErrorMessage app (remoteMissingText folder.syncName) none
      startSyncsLoop env i (removeSyncedFolder app i)
    | some node =>
      if (env.getParentNode node).map (fun n => n.nodehandle) =
          env.getRubbishNode.map (fun n => n.nodehandle) then
        let app := showErrorMessage app (inTrashText folder.syncName) none
        startSyncsLoop env i (removeSyncedFolder app i)
      else
        let localFolder := folder.localFolder
        if !env.isDir localFolder then
          let app := showErrorMessage app (localMissingText folder.syncName) none
          startSyncsLoop env i (removeSyncedFolder app i)
        else
          startSyncsLoop env (i + 1) (emit app (.syncFolder localFolder node.nodehandle))
  else app
termination_by app.preferences.syncedFolders.length - i
decreasing_by
  all_goals simp only [removeSyncedFolder, showErrorMessage, emit, List.length_eraseIdx, h,
    if_true]
  all_goals omega

/-- The function `MegaApplication::startSyncs`. -/
def startSyncs (env : Env) (app : MegaApplication) : MegaApplication :=
  let app := if app.activeSyncs.length ≠ 0 then stopSyncs app else app
  startSyncsLoop env 0 app

/-- Why a configured pair cannot be synced. -/
inductive SyncFailure where
  | remoteMissing
  | inTrash
  | localMissing
deriving DecidableEq, Repr

/-- The check of a configured pair: the remote node of a valid pair, or the
first cause that makes the pair invalid: the remote node does not resolve, or
its parent is the rubbish node, or the local path is not an existing directory. -/
def syncCheck (env : Env) (folder : SyncedFolder) : Except SyncFailure Node :=
  match env.getNodeByHandle folder.megaFolderHandle with
  | none => .error .remoteMissing
  | some node =>
    if (env.getParentNode node).map (fun n => n.nodehandle) =
        env.getRubbishNode.map (fun n => n.nodehandle) then .error .inTrash
    else if !env.isDir folder.localFolder then .error .localMissing
    else .ok node

/-- A configured pair is valid. -/
def syncValid (env : Env) (folder : SyncedFolder) : Bool :=
  match syncCheck env folder with
  | .ok _ => true
  | .error _ => false

/-- The disablement message for a cause. -/
def disabledText (cause : SyncFailure) (syncName : QString) : Text :=
  match cause with
  | .remoteMissing => remoteMissingText syncName
  | .inTrash => inTrashText syncName
  | .localMissing => localMissingText syncName

/-- The one call that `startSyncs` owes for a configured pair: `syncFolder`
for a valid pair, the disablement message of its first cause otherwise. -/
def syncEffect (env : Env) (folder : SyncedFolder) : Effect :=
  match syncCheck env folder with
  | .error cause => .messageBox .Critical none (disabledText cause folder.syncName)
  | .ok node => .syncFolder folder.localFolder node.nodehandle

/-- The calls of `syncFolder` among the effects: local folder and remote node. -/
def syncFoldersOf (effects : List Effect) : List (QString × Handle) :=
  effects.filterMap fun
    | .syncFolder localFolder node => some (localFolder, node)
    | _ => none

/-- The error messages among the effects. -/
def errorMessagesOf (effects : List Effect) : List Text :=
  effects.filterMap fun
    | .messageBox .Critical _ message => some message
    | _ => none

/-- The calls of `syncFolder` owed for a configuration: one for each valid
pair, in order, with its local folder and its remote node. -/
def expectedSyncs (env : Env) (folders : List SyncedFolder) : List (QString × Handle) :=
  folders.filterMap fun folder =>
    match syncCheck env folder with
    | .ok node => some (folder.localFolder, node.nodehandle)
    | .error _ => none

/-- The disablement messages owed for a configuration: one for each invalid
pair, in order, for its first cause. -/
def expectedDisablements (env : Env) (folders : List SyncedFolder) : List Text :=
  folders.filterMap fun folder =>
    match syncCheck env folder with
    | .ok _ => none
    | .error cause => some (disabledText cause folder.syncName)

/-! ## Transfer statistics -/

/-- The function `MegaApplication::onTransferStart`.  The handler calls through
`infoDialog` without a test: on a null `infoDialog` there is no result. -/
def onTransferStart (app : MegaApplication) (transfer : MegaTransfer) : Option MegaApplication :=
  let app :=
    if transfer.type = .TYPE_DOWNLOAD then
      { app with
        downloadSpeed := 0
        queuedDownloads := app.queuedDownloads + 1
        totalDownloads := app.totalDownloads + 1
        totalDownloadSize := app.totalDownloadSize + transfer.totalBytes }
    else
      { app with
        uploadSpeed := 0
        queuedUploads := app.queuedUploads + 1
        totalUploads := app.totalUploads + 1
        totalUploadSize := app.totalUploadSize + transfer.totalBytes }
  if !app.infoDialog then none else
  let app := emit app (.setTransferCount app.totalDownloads app.totalUploads
    app.queuedDownloads app.queuedUploads)
  let app := emit app (.setTotalTransferSize app.totalDownloadSize app.totalUploadSize)
  some (if !app.paused then showSyncingIcon app else app)

/-- The function `MegaApplication::onTransferFinish`. -/
def onTransferFinish (app : MegaApplication) (transfer : MegaTransfer) (e : MegaError) :
    Option MegaApplication :=
  if !app.infoDialog then none else
  let app :=
    if transfer.type = .TYPE_DOWNLOAD then
      let app := { app with
        queuedDownloads := app.queuedDownloads - 1
        totalDownloadedSize := app.totalDownloadedSize + transfer.deltaSize
        downloadSpeed := transfer.speed }
      if e.errorCode = API_OK then
        emit app (.addRecentFile transfer.fileName transfer.nodeHandle transfer.path)
      else app
    else
      let app := { app with
        queuedUploads := app.queuedUploads - 1
        totalUploadedSize := app.totalUploadedSize + transfer.deltaSize
        uploadSpeed := transfer.speed }
      if e.errorCode = API_OK then
        { app with
          uploadLocalPaths := Function.update app.uploadLocalPaths transfer.tag (some transfer.path) }
      else app
  let app := emit app (.setTransferredSize app.totalDownloadedSize app.totalUploadedSize)
  let app := emit app (.setTransferSpeeds app.downloadSpeed app.uploadSpeed)
  let app := emit app (.setTransfer transfer.type transfer.fileName transfer.transferredBytes
    transfer.totalBytes)
  let app := emit app (.setTransferCount app.totalDownloads app.totalUploads
    app.queuedDownloads app.queuedUploads)
  let app := emit app .updateDialog
  if app.queuedDownloads = 0 ∧ app.queuedUploads = 0 then
    let app := { app with
      totalUploads := 0, totalDownloads := 0
      totalUploadSize := 0, totalDownloadSize := 0
      totalUploadedSize := 0, totalDownloadedSize := 0
      uploadSpeed := 0, downloadSpeed := 0 }
    let app := showSyncedIcon app
    some (if app.reboot then emit app (.singleShot 10000 "rebootApplication()") else app)
  else some app

/-- The function `MegaApplication::onTransferUpdate`. -/
def onTransferUpdate (app : MegaApplication) (transfer : MegaTransfer) : Option MegaApplication :=
  let app :=
    if transfer.type = .TYPE_DOWNLOAD then
      { app with
        downloadSpeed := transfer.speed
        totalDownloadedSize := app.totalDownloadedSize + transfer.deltaSize }
    else
      { app with
        uploadSpeed := transfer.speed
        totalUploadedSize := app.totalUploadedSize + transfer.deltaSize }
  if !app.infoDialog then none else
  let app := emit app (.setTransfer transfer.type transfer.fileName transfer.transferredBytes
    transfer.totalBytes)
  let app := emit app (.setTransferSpeeds app.downloadSpeed app.uploadSpeed)
  let app := emit app (.setTransferredSize app.totalDownloadedSize app.totalUploadedSize)
  some (emit app .updateDialog)

/-- A transfer callback of the SDK. -/
inductive TransferEvent where
  | start (transfer : MegaTransfer)
  | update (transfer : MegaTransfer)
  | finish (transfer : MegaTransfer) (e : MegaError)
deriving DecidableEq, Repr

/-- Deliver one transfer callback. -/
def deliver (app : MegaApplication) : TransferEvent → Option MegaApplication
  | .start t => onTransferStart app t
  | .update t => onTransferUpdate app t
  | .finish t e => onTransferFinish app t e

/-- Deliver a sequence of transfer callbacks, one after the other. -/
def deliverAll (app : MegaApplication) : List TransferEvent → Option MegaApplication
  | [] => some app
  | ev :: evs => (deliver app ev).bind fun app => deliverAll app evs

/-- The statistics are as the constructor sets them (lines 67-72): all zero. -/
abbrev statsInitial (app : MegaApplication) : Prop :=
  app.queuedDownloads = 0 ∧ app.queuedUploads = 0 ∧
  app.totalUploads = 0 ∧ app.totalDownloads = 0 ∧
  app.totalDownloadSize = 0 ∧ app.totalUploadSize = 0 ∧
  app.totalDownloadedSize = 0 ∧ app.totalUploadedSize = 0 ∧
  app.uploadSpeed = 0 ∧ app.downloadSpeed = 0

/-- The application once `loggedIn` has created the information dialog, with
the statistics still as constructed. -/
def ready (preferences : Preferences) : MegaApplication :=
  { constructed preferences with infoDialog := true }

/-- A sequence of callbacks is balanced from `u` unfinished uploads and `d`
unfinished downloads: each finish is preceded by a not yet finished start of
its direction, an update reports a transfer of a direction that has one in
flight, and at the end every started transfer has finished. -/
def balancedFrom : Nat → Nat → List TransferEvent → Bool
  | u, d, [] => u == 0 && d == 0
  | u, d, .start t :: evs =>
    if t.type = .TYPE_DOWNLOAD then balancedFrom u (d + 1) evs else balancedFrom (u + 1) d evs
  | u, d, .update t :: evs =>
    (if t.type = .TYPE_DOWNLOAD then decide (0 < d) else decide (0 < u)) && balancedFrom u d evs
  | u, d, .finish t _ :: evs =>
    if t.type = .TYPE_DOWNLOAD then decide (0 < d) && balancedFrom u (d - 1) evs
    else decide (0 < u) && balancedFrom (u - 1) d evs

/-- From `u` unfinished uploads and `d` unfinished downloads, each finish of the
sequence is preceded by a not yet finished start of its direction. -/
def precededFrom : Nat → Nat → List TransferEvent → Bool
  | _, _, [] => true
  | u, d, .start t :: evs =>
    if t.type = .TYPE_DOWNLOAD then precededFrom u (d + 1) evs else precededFrom (u + 1) d evs
  | u, d, .update _ :: evs => precededFrom u d evs
  | u, d, .finish t _ :: evs =>
    if t.type = .TYPE_DOWNLOAD then decide (0 < d) && precededFrom u (d - 1) evs
    else decide (0 < u) && precededFrom (u - 1) d evs

/-- The callbacks of transfers with distinct tags: a start carries a tag not
used before (`used`), an update or a finish carries the direction and tag of a
transfer in flight (`inflight`), a finish ends it, and at the end no transfer
is in flight. -/
def matchedFrom : List (TransferType × Int) → List Int → List TransferEvent → Bool
  | inflight, _, [] => inflight.isEmpty
  | inflight, used, .start t :: evs =>
    !used.contains t.tag && matchedFrom ((t.type, t.tag) :: inflight) (t.tag :: used) evs
  | inflight, used, .update t :: evs =>
    inflight.contains (t.type, t.tag) && matchedFrom inflight used evs
  | inflight, used, .finish t _ :: evs =>
    inflight.contains (t.type, t.tag) && matchedFrom (inflight.erase (t.type, t.tag)) used evs

/-- The number of transfer-start callbacks of a direction in a sequence. -/
def startsOf (type : TransferType) : List TransferEvent → Nat
  | [] => 0
  | .start t :: evs => (if t.type = type then 1 else 0) + startsOf type evs
  | _ :: evs => startsOf type evs

/-- The totals, sizes and speeds are all zero. -/
abbrev totalsZero (app : MegaApplication) : Prop :=
  app.totalUploads = 0 ∧ app.totalDownloads = 0 ∧
  app.totalDownloadSize = 0 ∧ app.totalUploadSize = 0 ∧
  app.totalDownloadedSize = 0 ∧ app.totalUploadedSize = 0 ∧
  app.uploadSpeed = 0 ∧ app.downloadSpeed = 0

/-- The number of transfers of a direction among those in flight. -/
def inflightOf (type : TransferType) (inflight : List (TransferType × Int)) : Nat :=
  inflight.countP fun x => x.1 = type

/-! ### Sample inputs -/

/-- Sample preferences: logged in, notifications shown, no synced folder. -/
def samplePreferences : Preferences :=
  ⟨true, true, 0, []⟩

/-- A sample upload of 100 bytes with tag 7. -/
def sampleUpload : MegaTransfer :=
  ⟨.TYPE_UPLOAD, 100, 40, 5, 100, 7, some "/local/x.txt", some "x.txt", 11⟩

/-- A sample download of 30 bytes with tag 8. -/
def sampleDownload : MegaTransfer :=
  ⟨.TYPE_DOWNLOAD, 30, 30, 2, 30, 8, some "/local/y.txt", some "y.txt", 12⟩

/-- Two transfers, one of each direction, started and then finished. -/
def sampleBalanced : List TransferEvent :=
  [.start sampleUpload, .start sampleDownload, .update sampleUpload,
   .finish sampleUpload ⟨API_OK⟩, .finish sampleDownload ⟨API_OK⟩]

/-- One upload, started and finished. -/
def oneUpload : List TransferEvent :=
  [.start sampleUpload, .finish sampleUpload ⟨API_OK⟩]

/-- A finish callback of a download that was never started. -/
def loneFinish : List TransferEvent :=
  [.finish sampleDownload ⟨API_OK⟩]

/-- An upload in flight while a download starts and finishes. -/
def samplePreceded : List TransferEvent :=
  [.start sampleUpload, .start sampleDownload, .finish sampleDownload ⟨API_OK⟩,
   .update sampleUpload]

/-- A sample remote folder with handle 1. -/
def sampleFolder : Node :=
  ⟨1, .FOLDERNODE, 0, false, false, none, some "Uploads"⟩

/-- A sample remote file with handle 2. -/
def sampleFile : Node :=
  ⟨2, .FILENODE, 0, false, false, none, some "notes.txt"⟩

/-- The sample rubbish node, with handle 9. -/
def sampleRubbish : Node :=
  ⟨9, .RUBBISHNODE, 0, false, false, none, some "Rubbish"⟩

/-- A sample environment: handle 1 is a folder, handle 2 a file, handle 3 a
folder in the rubbish bin, no other handle resolves; the local directories are
`/sync/a` and `/sync/b`; the paths `/big` and `/huge` exceed the folder limits;
the file name of a path is the path itself. -/
def sampleEnv : Env where
  getNodeByHandle := fun h =>
    if h = 1 then some sampleFolder
    else if h = 2 then some sampleFile
    else if h = 3 then some ⟨3, .FOLDERNODE, 0, false, false, none, some "Old"⟩
    else none
  getParentNode := fun node => if node.nodehandle = 3 then some sampleRubbish else none
  getRubbishNode := some sampleRubbish
  isDir := fun path => path = some "/sync/a" || path = some "/sync/b"
  verifySyncedFolderLimits := fun path => !(path = some "/big" || path = some "/huge")
  fileName := fun path => path
  MAX_FOLDERS_IN_NEW_SYNC_FOLDER := 80
  MAX_FILES_IN_NEW_SYNC_FOLDER := 250

/-- A sample application with an open destination dialog and one queued path. -/
def sampleSelecting : MegaApplication :=
  { ready samplePreferences with uploadFolderSelector := true, uploadQueue := [some "/a"] }

/-- A sample application with three queued paths, one of them too large. -/
def sampleQueued : MegaApplication :=
  { ready samplePreferences with uploadQueue := [some "/a", some "/big", some "/b"] }

/-- A sample batch of two nodes without a tag. -/
def sampleExternalBatch : List Node :=
  [sampleFolder, sampleFile]

/-- The sample application with the notifications switched off in the preferences. -/
def sampleMuted : MegaApplication :=
  ready ⟨true, false, 0, []⟩

/-- A sample node of an upload with tag 7. -/
def sampleUploaded : Node :=
  ⟨21, .FILENODE, 7, false, false, none, some "x.txt"⟩

/-- The sample application with the tag 7 registered for `/local/x.txt`. -/
def sampleRegistered : MegaApplication :=
  { ready samplePreferences with
    uploadLocalPaths := Function.update (fun _ => none) 7 (some (some "/local/x.txt")) }

/-- Four configured pairs: a valid one, one whose local folder is gone, one
whose remote folder is in the rubbish bin, one whose remote folder is gone. -/
def sampleSyncs : List SyncedFolder :=
  [⟨some "/sync/a", 1, some "A"⟩, ⟨some "/sync/gone", 1, some "B"⟩,
   ⟨some "/sync/b", 3, some "C"⟩, ⟨some "/sync/b", 5, some "D"⟩]

/-- The sample application with the four configured pairs. -/
def sampleConfigured : MegaApplication :=
  ready ⟨true, true, 0, sampleSyncs⟩

/-! ## The statistics of one direction -/

/-- The statistics that the application keeps for one direction. -/
structure TransferStats where
  activeCount : Int
  lifetimeCount : Int
  totalBytesExpected : Int
  totalBytesTransferred : Int
  instantaneousSpeed : Int
deriving DecidableEq, Repr

/-- The statistics of a direction: for downloads `queuedDownloads`,
`totalDownloads`, `totalDownloadSize`, `totalDownloadedSize` and
`downloadSpeed`; for uploads the five upload fields. -/
def statsOf (type : TransferType) (app : MegaApplication) : TransferStats :=
  match type with
  | .TYPE_DOWNLOAD =>
    ⟨app.queuedDownloads, app.totalDownloads, app.totalDownloadSize, app.totalDownloadedSize,
      app.downloadSpeed⟩
  | .TYPE_UPLOAD =>
    ⟨app.queuedUploads, app.totalUploads, app.totalUploadSize, app.totalUploadedSize,
      app.uploadSpeed⟩

/-- The other direction. -/
def otherDirection : TransferType → TransferType
  | .TYPE_DOWNLOAD => .TYPE_UPLOAD
  | .TYPE_UPLOAD => .TYPE_DOWNLOAD

/-! ## The restart -/

/-- The function `MegaApplication::stopUpdateTask`: its body is commented out. -/
def stopUpdateTask (app : MegaApplication) : MegaApplication := app

/-- The function `MegaApplication::rebootApplication`. -/
def rebootApplication (app : MegaApplication) : MegaApplication :=
  if app.queuedDownloads ≠ 0 ∨ app.queuedUploads ≠ 0 then app
  else
    let app := stopUpdateTask app
    let app := emit app (.session .stopShellDispatcher)
    let app := emit app (.session .startDetached)
    emit app (.session .applicationExit)

/-- The function `MegaApplication::onUpdateCompleted`. -/
def onUpdateCompleted (app : MegaApplication) : MegaApplication :=
  emit { app with reboot := true } (.singleShot 10000 "rebootApplication()")

/-- The launches of a new process among the effects. -/
def restartsOf (effects : List Effect) : Nat :=
  effects.count (.session .startDetached)

/-- The calls of `QApplication::exit()` among the effects. -/
def exitsOf (effects : List Effect) : Nat :=
  effects.count (.session .applicationExit)

/-- The sample application after an update has completed, with one upload queued. -/
def sampleBusyReboot : MegaApplication :=
  { onUpdateCompleted (ready samplePreferences) with queuedUploads := 1, totalUploads := 1 }

/-- A sample application with one upload and two downloads in flight. -/
def sampleBusy : MegaApplication :=
  { ready samplePreferences with
    queuedUploads := 1, totalUploads := 1, totalUploadSize := 100,
    queuedDownloads := 2, totalDownloads := 3, totalDownloadSize := 90,
    totalDownloadedSize := 30, downloadSpeed := 4 }

/-! ## The session -/

/-- The kind of a request (`MegaRequest::getType`); `TYPE_OTHER` stands for
the kinds that `onRequestFinish` handles in its `default` case. -/
inductive RequestType where
  | TYPE_EXPORT
  | TYPE_LOGIN
  | TYPE_FAST_LOGIN
  | TYPE_LOGOUT
  | TYPE_FETCH_NODES
  | TYPE_ACCOUNT_DETAILS
  | TYPE_PAUSE_TRANSFERS
  | TYPE_OTHER
deriving DecidableEq, Repr

/-- What the handlers read from a `MegaRequest`. -/
structure MegaRequest where
  type : RequestType
  link : QString
  accountDetails : AccountDetails
  flag : Bool
deriving DecidableEq, Repr

/-- What the setup wizard leaves in the preferences when its `exec` returns. -/
structure WizardResult where
  preferences : Preferences
  accountPreferences : AccountPreferences
deriving DecidableEq, Repr

/-- How a handler ends: it returns, or it ends the process with `::exit(0)`,
or it calls through the null `infoDialog`; each with the application as it is
at that point. -/
inductive Outcome where
  | returned (app : MegaApplication)
  | exited (app : MegaApplication)
  | nullCall (app : MegaApplication)

/-- The application at the end of a handler. -/
def Outcome.app : Outcome → MegaApplication
  | .returned app => app
  | .exited app => app
  | .nullCall app => app

/-- The handler has returned. -/
def Outcome.hasReturned : Outcome → Bool
  | .returned _ => true
  | _ => false

/-- The function `MegaApplication::setUploadLimit`. -/
def setUploadLimit (app : MegaApplication) (limit : Int) : MegaApplication :=
  if limit < 0 then emit app (.session (.setUploadLimit (-1)))
  else emit app (.session (.setUploadLimit (limit * 1024)))

/-- The function `MegaApplication::createTrayIcon`. -/
def createTrayIcon (app : MegaApplication) : MegaApplication :=
  let app := if app.trayMenu then emit app (.session .trayMenuDeleteLater) else app
  let app := emit { app with trayMenu := true } (.session .newTrayMenu)
  emitAll app [.session (.addAction .pauseAction), .session (.addAction .importLinksAction),
    .session (.addAction .settingsAction), .session (.addAction .exitAction),
    .session .setContextMenu, .setIcon "://images/app_ico.ico",
    .session .connectTrayIconActivated]

/-- The text of the notification of `loggedIn` (line 127). -/
def runningText : Text :=
  tr "MEGAsync is now running. Click here to open the status window."

/-- The function `MegaApplication::loggedIn`. -/
def loggedIn (env : Env) (app : MegaApplication) : MegaApplication :=
  let app := createTrayIcon app
  let app := showNotificationMessage app runningText none
  let app := emit { app with infoDialog := true } (.session .newInfoDialog)
  let app := emit app (.session .getAccountDetails)
  let app := setUploadLimit app app.accountPreferences.uploadLimitKB
  let app := startSyncs env app
  let app := emit app (.session .enableTrayIcon)
  let app := emit app (.session .startShellDispatcher)
  emit { app with httpServer := true } (.session (.newHTTPServer 2973))

/-- The function `MegaApplication::init`; `wizard` is what the setup wizard
leaves in the preferences, should it run. -/
def init (env : Env) (app : MegaApplication) (wizard : WizardResult) : Outcome :=
  let app := emitAll app [.setIcon "://images/login_ico.ico", .session .setContextMenuNull,
    .session .trayIconShow]
  if !app.preferences.logged then
    let app := emit { app with setupWizard := true } (.session .newSetupWizard)
    let app := emit app (.session .setupWizardExec)
    let app := { app with
      preferences := wizard.preferences
      accountPreferences := wizard.accountPreferences }
    if !app.preferences.logged then .exited app
    else .returned (loggedIn env app)
  else
    .returned (emit app (.session (.fastLogin app.accountPreferences.email
      app.accountPreferences.emailHash app.accountPreferences.privatePw)))

/-- The function `MegaApplication::unlink`. -/
def unlink (app : MegaApplication) : MegaApplication :=
  let app := emit { app with httpServer := false } (.session .deleteHttpServer)
  let app := stopSyncs app
  let app := emit app (.session .stopShellDispatcher)
  emit app (.session .logout)

/-- Modelled from the spec: `Preferences::unlink()` is not among the sources;
the spec has the logout transition "clear persisted credential": the logged-in
flag is reset and the stored credentials are null. -/
def preferencesUnlink (app : MegaApplication) : MegaApplication :=
  { app with
    preferences := { app.preferences with logged := false }
    accountPreferences :=
      { app.accountPreferences with email := none, emailHash := none, privatePw := none } }

/-- The case `TYPE_FETCH_NODES` of `onRequestFinish` (lines 622-641). -/
def onFetchNodesFinish (env : Env) (app : MegaApplication) (e : MegaError) : Outcome :=
  if app.preferences.logged then
    if e.errorCode = API_OK then .returned (loggedIn env app)
    else .returned (unlink app)
  else .returned app

/-- The case `TYPE_ACCOUNT_DETAILS` of `onRequestFinish` (lines 642-656). -/
def onAccountDetailsFinish (app : MegaApplication) (request : MegaRequest) (e : MegaError) :
    Outcome :=
  if e.errorCode ≠ API_OK then .returned app
  else
    let details := request.accountDetails
    let app := { app with accountPreferences :=
      { app.accountPreferences with
        accountType := details.pro_level
        totalStorage := details.storage_max
        usedStorage := details.storage_used
        totalBandwidth := details.transfer_max
        usedBandwidth := details.transfer_own_used } }
    if !app.infoDialog then .nullCall app
    else .returned (emit app (.session (.setUsage details.storage_max details.storage_used)))

/-- The case `TYPE_PAUSE_TRANSFERS` of `onRequestFinish` (lines 657-674). -/
def onPauseTransfersFinish (app : MegaApplication) (request : MegaRequest) : Outcome :=
  if !app.infoDialog then .nullCall app
  else
    let app := emit app (.session (.setPaused request.flag))
    let app := { app with paused := request.flag }
    if app.paused then
      .returned (emitAll app [.setIcon "://images/tray_pause.ico", .removeAction .pauseAction,
        .insertAction .importLinksAction .resumeAction])
    else
      let app := emitAll app [.removeAction .resumeAction,
        .insertAction .importLinksAction .pauseAction]
      if app.queuedUploads ≠ 0 ∨ app.queuedDownloads ≠ 0 then
        .returned (emit app (.setIcon "://images/tray_sync.ico"))
      else .returned (emit app (.setIcon "://images/app_ico.ico"))

/-- The function `MegaApplication::onRequestFinish`.  The case `TYPE_LOGOUT`
(lines 613-621) has no `break`: when `init` returns, or when the logged-in
flag is not set, control goes on into the case `TYPE_FETCH_NODES`. -/
def onRequestFinish (env : Env) (app : MegaApplication) (request : MegaRequest)
    (e : MegaError) (wizard : WizardResult) : Outcome :=
  match request.type with
  | .TYPE_EXPORT =>
    if e.errorCode = API_OK then
      let app := emit app (.session (.clipboardSetText request.link))
      .returned (showInfoMessage app (tr "The link has been copied to the clipboard") none)
    else .returned app
  | .TYPE_LOGIN | .TYPE_FAST_LOGIN =>
    if app.preferences.logged then
      if e.errorCode = API_OK then
        .returned (emitAll app [.session .fetchNodes, .session .getAccountDetails])
      else .returned (unlink app)
    else .returned app
  | .TYPE_LOGOUT =>
    if app.preferences.logged then
      let app := preferencesUnlink app
      let app := emit app (.session .deleteInfoDialog)
      match init env app wizard with
      | .returned app => onFetchNodesFinish env app e
      | outcome => outcome
    else onFetchNodesFinish env app e
  | .TYPE_FETCH_NODES => onFetchNodesFinish env app e
  | .TYPE_ACCOUNT_DETAILS => onAccountDetailsFinish app request e
  | .TYPE_PAUSE_TRANSFERS => onPauseTransfersFinish app request
  | .TYPE_OTHER => .returned app

/-- The runs of `loggedIn` among the effects: each creates one information dialog. -/
def loggedInRunsOf (effects : List Effect) : Nat :=
  effects.count (.session .newInfoDialog)

/-- The runs of `unlink` among the effects: each calls `megaApi->logout()` once. -/
def unlinkRunsOf (effects : List Effect) : Nat :=
  effects.count (.session .logout)

/-- The runs of `init` among the effects: each shows the tray icon once. -/
def initRunsOf (effects : List Effect) : Nat :=
  effects.count (.session .trayIconShow)

/-- The account figures that the preferences cache. -/
def cachedFigures (app : MegaApplication) : AccountDetails :=
  ⟨app.accountPreferences.accountType, app.accountPreferences.totalStorage,
    app.accountPreferences.usedStorage, app.accountPreferences.totalBandwidth,
    app.accountPreferences.usedBandwidth⟩

/-- A sample account-details reply: a free account with 50 units of storage. -/
def sampleAccountReply : MegaRequest :=
  ⟨.TYPE_ACCOUNT_DETAILS, none, ⟨0, 50, 7, 10, 1⟩, false⟩

/-- A sample logout reply. -/
def sampleLogoutReply : MegaRequest :=
  ⟨.TYPE_LOGOUT, none, ⟨0, 0, 0, 0, 0⟩, false⟩

/-- The sample application after the login reply and before the fetch-nodes
reply: the preferences say logged in, `loggedIn` has not run. -/
def sampleAwaitingFetchNodes : MegaApplication :=
  constructed samplePreferences

/-- A sample answer of the setup wizard: the user has logged in again. -/
def sampleWizard : WizardResult :=
  ⟨samplePreferences, ⟨some "a@b.c", some "hash", some "pw", 0, 0, 0, 0, 0, 0⟩⟩

/-- A sample error of a reply: a code other than `API_OK`. -/
def sampleFailure : MegaError :=
  ⟨-9⟩

/-! ## Theorems -/

theorem onTransferStart_counts (app : MegaApplication) (t : MegaTransfer)
    (h : app.infoDialog = true) :
    ∃ app', onTransferStart app t = some app' ∧ app'.infoDialog = true ∧
      app'.queuedDownloads =
        app.queuedDownloads + (if t.type = .TYPE_DOWNLOAD then 1 else 0) ∧
      app'.queuedUploads =
        app.queuedUploads + (if t.type = .TYPE_DOWNLOAD then 0 else 1) := by
  unfold onTransferStart
  by_cases ht : t.type = .TYPE_DOWNLOAD <;> by_cases hp : app.paused = true <;>
    simp [ht, hp, h, emit, emitAll, showSyncingIcon]

theorem onTransferUpdate_counts (app : MegaApplication) (t : MegaTransfer)
    (h : app.infoDialog = true) :
    ∃ app', onTransferUpdate app t = some app' ∧ app'.infoDialog = true ∧
      app'.queuedDownloads = app.queuedDownloads ∧
      app'.queuedUploads = app.queuedUploads ∧
      True := by
  unfold onTransferUpdate
  by_cases ht : t.type = .TYPE_DOWNLOAD <;>
    simp [ht, h, emit, emitAll]

theorem onTransferFinish_counts (app : MegaApplication) (t : MegaTransfer) (e : MegaError)
    (h : app.infoDialog = true) :
    ∃ app', onTransferFinish app t e = some app' ∧ app'.infoDialog = true ∧
      app'.queuedDownloads =
        app.queuedDownloads - (if t.type = .TYPE_DOWNLOAD then 1 else 0) ∧
      app'.queuedUploads =
        app.queuedUploads - (if t.type = .TYPE_DOWNLOAD then 0 else 1) ∧
      (app'.queuedDownloads = 0 ∧ app'.queuedUploads = 0 → totalsZero app') := by
  unfold onTransferFinish
  by_cases ht : t.type = .TYPE_DOWNLOAD <;> by_cases he : e.errorCode = API_OK <;>
    simp only [ht, he, h, emit, emitAll, showSyncedIcon, if_true, if_false] <;>
    split_ifs <;> simp_all

theorem deliverAll_balancedFrom (evs : List TransferEvent) :
    ∀ (app : MegaApplication) (u d : Nat), app.infoDialog = true →
      app.queuedUploads = u → app.queuedDownloads = d →
      (u = 0 ∧ d = 0 → totalsZero app) → balancedFrom u d evs = true →
      ∃ app', deliverAll app evs = some app' ∧ app'.infoDialog = true ∧
        app'.queuedUploads = 0 ∧ app'.queuedDownloads = 0 ∧ totalsZero app' := by
  induction evs with
  | nil =>
    intro app u d hi hu hd hz hb
    simp only [balancedFrom, Bool.and_eq_true, beq_iff_eq] at hb
    obtain ⟨hu0, hd0⟩ := hb
    subst hu0 hd0
    exact ⟨app, rfl, hi, by simpa using hu, by simpa using hd, hz ⟨rfl, rfl⟩⟩
  | cons ev evs ih =>
    intro app u d hi hu hd hz hb
    cases ev with
    | start t =>
      obtain ⟨app1, h1, hi1, hd1, hu1⟩ := onTransferStart_counts app t hi
      simp only [deliverAll, deliver, h1, Option.some_bind]
      by_cases ht : t.type = .TYPE_DOWNLOAD
      · simp only [balancedFrom, ht, if_true] at hb
        simp only [ht, if_true] at hd1 hu1
        exact ih app1 u (d + 1) hi1 (by omega) (by push_cast; omega) (by omega) hb
      · simp only [balancedFrom, ht, if_false] at hb
        simp only [ht, if_false] at hd1 hu1
        exact ih app1 (u + 1) d hi1 (by push_cast; omega) (by omega) (by omega) hb
    | update t =>
      obtain ⟨app1, h1, hi1, hd1, hu1, -⟩ := onTransferUpdate_counts app t hi
      simp only [deliverAll, deliver, h1, Option.some_bind]
      simp only [balancedFrom, Bool.and_eq_true] at hb
      refine ih app1 u d hi1 (by omega) (by omega) ?_ hb.2
      rintro ⟨rfl, rfl⟩
      have := hb.1
      split_ifs at this <;> simp at this
    | finish t e =>
      obtain ⟨app1, h1, hi1, hd1, hu1, hz1⟩ := onTransferFinish_counts app t e hi
      simp only [deliverAll, deliver, h1, Option.some_bind]
      by_cases ht : t.type = .TYPE_DOWNLOAD
      · simp only [balancedFrom, ht, if_true, Bool.and_eq_true, decide_eq_true_eq] at hb
        simp only [ht, if_true] at hd1 hu1
        refine ih app1 u (d - 1) hi1 (by omega) (by omega) ?_ hb.2
        intro h0
        exact hz1 ⟨by omega, by omega⟩
      · simp only [balancedFrom, ht, if_false, Bool.and_eq_true, decide_eq_true_eq] at hb
        simp only [ht, if_false] at hd1 hu1
        refine ih app1 (u - 1) d hi1 (by omega) (by omega) ?_ hb.2
        intro h0
        exact hz1 ⟨by omega, by omega⟩

theorem deliverAll_precededFrom (evs : List TransferEvent) :
    ∀ (app : MegaApplication) (u d : Nat), app.infoDialog = true →
      app.queuedUploads = u → app.queuedDownloads = d → precededFrom u d evs = true →
      ∃ app', deliverAll app evs = some app' ∧
        0 ≤ app'.queuedUploads ∧ 0 ≤ app'.queuedDownloads := by
  induction evs with
  | nil =>
    intro app u d _ hu hd _
    exact ⟨app, rfl, by omega, by omega⟩
  | cons ev evs ih =>
    intro app u d hi hu hd hb
    cases ev with
    | start t =>
      obtain ⟨app1, h1, hi1, hd1, hu1⟩ := onTransferStart_counts app t hi
      simp only [deliverAll, deliver, h1, Option.some_bind]
      by_cases ht : t.type = .TYPE_DOWNLOAD
      · simp only [precededFrom, ht, if_true] at hb
        simp only [ht, if_true] at hd1 hu1
        exact ih app1 u (d + 1) hi1 (by omega) (by push_cast; omega) hb
      · simp only [precededFrom, ht, if_false] at hb
        simp only [ht, if_false] at hd1 hu1
        exact ih app1 (u + 1) d hi1 (by push_cast; omega) (by omega) hb
    | update t =>
      obtain ⟨app1, h1, hi1, hd1, hu1, -⟩ := onTransferUpdate_counts app t hi
      simp only [deliverAll, deliver, h1, Option.some_bind]
      simp only [precededFrom] at hb
      exact ih app1 u d hi1 (by omega) (by omega) hb
    | finish t e =>
      obtain ⟨app1, h1, hi1, hd1, hu1, -⟩ := onTransferFinish_counts app t e hi
      simp only [deliverAll, deliver, h1, Option.some_bind]
      by_cases ht : t.type = .TYPE_DOWNLOAD
      · simp only [precededFrom, ht, if_true, Bool.and_eq_true, decide_eq_true_eq] at hb
        simp only [ht, if_true] at hd1 hu1
        exact ih app1 u (d - 1) hi1 (by omega) (by omega) hb.2
      · simp only [precededFrom, ht, if_false, Bool.and_eq_true, decide_eq_true_eq] at hb
        simp only [ht, if_false] at hd1 hu1
        exact ih app1 (u - 1) d hi1 (by omega) (by omega) hb.2

theorem inflightOf_erase (type : TransferType) (x : TransferType × Int) :
    ∀ (l : List (TransferType × Int)), x ∈ l →
      inflightOf type (l.erase x) = inflightOf type l - (if x.1 = type then 1 else 0) ∧
      (x.1 = type → 0 < inflightOf type l) := by
  intro l
  induction l with
  | nil => intro h; simp at h
  | cons y l ih =>
    intro h
    by_cases hxy : y = x
    · subst hxy
      simp only [List.erase_cons_head, inflightOf, List.countP_cons]
      by_cases hy : y.1 = type <;> simp [hy]
    · have hmem : x ∈ l := by
        rcases List.mem_cons.1 h with h | h
        · exact absurd h.symm hxy
        · exact h
      obtain ⟨h1, h2⟩ := ih hmem
      rw [List.erase_cons_tail (by simpa using hxy)]
      simp only [inflightOf, List.countP_cons] at h1 h2 ⊢
      rw [h1]
      by_cases hx : x.1 = type
      · have h3 := h2 hx
        simp only [hx, if_true]
        constructor
        · split_ifs <;> omega
        · intro _; omega
      · simp [hx]

theorem matchedFrom_balancedFrom (evs : List TransferEvent) :
    ∀ (inflight : List (TransferType × Int)) (used : List Int),
      matchedFrom inflight used evs = true →
      balancedFrom (inflightOf .TYPE_UPLOAD inflight) (inflightOf .TYPE_DOWNLOAD inflight) evs
        = true := by
  induction evs with
  | nil =>
    intro inflight used h
    simp only [matchedFrom, List.isEmpty_iff] at h
    subst h
    rfl
  | cons ev evs ih =>
    intro inflight used h
    cases ev with
    | start t =>
      simp only [matchedFrom, Bool.and_eq_true] at h
      have := ih _ _ h.2
      by_cases ht : t.type = .TYPE_DOWNLOAD
      · simpa [balancedFrom, ht, inflightOf, List.countP_cons] using this
      · have hu : t.type = .TYPE_UPLOAD := by cases hty : t.type <;> simp_all
        simpa [balancedFrom, hu, inflightOf, List.countP_cons] using this
    | update t =>
      simp only [matchedFrom, Bool.and_eq_true] at h
      have hmem : (t.type, t.tag) ∈ inflight := by simpa using h.1
      have := ih _ _ h.2
      have hpos := (inflightOf_erase t.type (t.type, t.tag) inflight hmem).2 rfl
      by_cases ht : t.type = .TYPE_DOWNLOAD
      · rw [ht] at hpos
        simp [balancedFrom, ht, this, hpos]
      · have hu : t.type = .TYPE_UPLOAD := by cases hty : t.type <;> simp_all
        rw [hu] at hpos
        simp [balancedFrom, hu, this, hpos]
    | finish t e =>
      simp only [matchedFrom, Bool.and_eq_true] at h
      have hmem : (t.type, t.tag) ∈ inflight := by simpa using h.1
      have := ih _ _ h.2
      have hpos := (inflightOf_erase t.type (t.type, t.tag) inflight hmem).2 rfl
      have hup := (inflightOf_erase .TYPE_UPLOAD (t.type, t.tag) inflight hmem).1
      have hdn := (inflightOf_erase .TYPE_DOWNLOAD (t.type, t.tag) inflight hmem).1
      rw [hup, hdn] at this
      by_cases ht : t.type = .TYPE_DOWNLOAD
      · rw [ht] at hpos
        simp only [ht] at this
        simpa [balancedFrom, ht, hpos] using this
      · have hu : t.type = .TYPE_UPLOAD := by cases hty : t.type <;> simp_all
        rw [hu] at hpos
        simp only [hu] at this
        simpa [balancedFrom, hu, hpos] using this

/-! ### Transfer statistics: the claims -/

/-- C1: from all-zero statistics, after a balanced sequence of transfer-start
and transfer-finish callbacks (each finish preceded by a not yet finished start
of its direction, as many finishes as starts in each direction) the handlers
have all returned, `queuedUploads` and `queuedDownloads` are 0 and the four
cumulative size fields are 0. -/
theorem balanced_transfers_reset_statistics (app : MegaApplication)
    (evs : List TransferEvent) (hdialog : app.infoDialog = true)
    (hinit : statsInitial app) (hbal : balancedFrom 0 0 evs = true) :
    ∃ app', deliverAll app evs = some app' ∧
      app'.queuedUploads = 0 ∧ app'.queuedDownloads = 0 ∧
      app'.totalUploadSize = 0 ∧ app'.totalDownloadSize = 0 ∧
      app'.totalUploadedSize = 0 ∧ app'.totalDownloadedSize = 0 := by
  obtain ⟨hqd, hqu, h1, h2, h3, h4, h5, h6, h7, h8⟩ := hinit
  obtain ⟨app', hrun, -, hu, hd, hz⟩ :=
    deliverAll_balancedFrom evs app 0 0 hdialog (by simpa using hqu) (by simpa using hqd)
      (fun _ => ⟨h1, h2, h3, h4, h5, h6, h7, h8⟩) hbal
  obtain ⟨-, -, z3, z4, z5, z6, -, -⟩ := hz
  exact ⟨app', hrun, hu, hd, z4, z3, z6, z5⟩

/-- C1, at a sample input: an upload and a download, started, updated and finished. -/
theorem balanced_transfers_reset_statistics_witness :
    (ready samplePreferences).infoDialog = true ∧ statsInitial (ready samplePreferences) ∧
    balancedFrom 0 0 sampleBalanced = true ∧
    ∃ app', deliverAll (ready samplePreferences) sampleBalanced = some app' ∧
      app'.queuedUploads = 0 ∧ app'.queuedDownloads = 0 ∧
      app'.totalUploadSize = 0 ∧ app'.totalDownloadSize = 0 ∧
      app'.totalUploadedSize = 0 ∧ app'.totalDownloadedSize = 0 :=
  ⟨rfl, by decide, by decide,
    balanced_transfers_reset_statistics (ready samplePreferences) sampleBalanced rfl
      (by decide) (by decide)⟩

/-- C2, as stated, fails: after one upload has started and finished (N = 1),
`queuedUploads` is 0 but `totalUploads` is 0 as well, not 1. -/
theorem lifetime_count_counterexample :
    matchedFrom [] [] oneUpload = true ∧ startsOf .TYPE_UPLOAD oneUpload = 1 ∧
    (deliverAll (ready samplePreferences) oneUpload).map
      (fun app => (app.queuedUploads, app.totalUploads)) = some (0, 0) := by
  decide

/-- C2, amended: from all-zero statistics, after the start callbacks of
transfers with distinct tags and their finish callbacks, in any interleaving in
which each finish follows its start, the handlers have all returned and in each
direction `queued...` is 0 and `total...` is 0: the last finish resets the
totals.  So `total...` equals the number N of starts of the direction only for
N = 0. -/
theorem matched_transfers_reset_counts (app : MegaApplication)
    (evs : List TransferEvent) (hdialog : app.infoDialog = true)
    (hinit : statsInitial app) (hmatched : matchedFrom [] [] evs = true) :
    ∃ app', deliverAll app evs = some app' ∧
      app'.queuedUploads = 0 ∧ app'.totalUploads = 0 ∧
      app'.queuedDownloads = 0 ∧ app'.totalDownloads = 0 ∧
      (app'.totalUploads = startsOf .TYPE_UPLOAD evs ↔ startsOf .TYPE_UPLOAD evs = 0) ∧
      (app'.totalDownloads = startsOf .TYPE_DOWNLOAD evs ↔
        startsOf .TYPE_DOWNLOAD evs = 0) := by
  obtain ⟨hqd, hqu, h1, h2, h3, h4, h5, h6, h7, h8⟩ := hinit
  have hbal := matchedFrom_balancedFrom evs [] [] hmatched
  obtain ⟨app', hrun, -, hu, hd, hz⟩ :=
    deliverAll_balancedFrom evs app 0 0 hdialog (by simpa using hqu) (by simpa using hqd)
      (fun _ => ⟨h1, h2, h3, h4, h5, h6, h7, h8⟩) hbal
  obtain ⟨z1, z2, -⟩ := hz
  refine ⟨app', hrun, hu, z1, hd, z2, ?_, ?_⟩
  · rw [z1]; omega
  · rw [z2]; omega

/-- C2 amended, at a sample input: an upload and a download with tags 7 and 8. -/
theorem matched_transfers_reset_counts_witness :
    (ready samplePreferences).infoDialog = true ∧ statsInitial (ready samplePreferences) ∧
    matchedFrom [] [] sampleBalanced = true ∧
    ∃ app', deliverAll (ready samplePreferences) sampleBalanced = some app' ∧
      app'.queuedUploads = 0 ∧ app'.totalUploads = 0 ∧
      app'.queuedDownloads = 0 ∧ app'.totalDownloads = 0 ∧
      (app'.totalUploads = startsOf .TYPE_UPLOAD sampleBalanced ↔
        startsOf .TYPE_UPLOAD sampleBalanced = 0) ∧
      (app'.totalDownloads = startsOf .TYPE_DOWNLOAD sampleBalanced ↔
        startsOf .TYPE_DOWNLOAD sampleBalanced = 0) :=
  ⟨rfl, by decide, by decide,
    matched_transfers_reset_counts (ready samplePreferences) sampleBalanced rfl
      (by decide) (by decide)⟩

/-- C3, as stated, fails: a finish callback of a download delivered to the
initial statistics leaves `queuedDownloads` at -1. -/
theorem queued_nonnegative_counterexample :
    statsInitial (ready samplePreferences) ∧
    (deliverAll (ready samplePreferences) loneFinish).map
      (fun app => decide (0 ≤ app.queuedDownloads)) = some false ∧
    (deliverAll (ready samplePreferences) loneFinish).map
      (fun app => app.queuedDownloads) = some (-1) := by
  decide

/-- C3, amended: from all-zero statistics, after any sequence of transfer-start,
transfer-update and transfer-finish callbacks in which each finish is preceded
by a not yet finished start of its direction, the handlers have all returned
and `queuedUploads >= 0` and `queuedDownloads >= 0`. -/
theorem queued_nonnegative_when_preceded (app : MegaApplication)
    (evs : List TransferEvent) (hdialog : app.infoDialog = true)
    (hinit : statsInitial app) (hpre : precededFrom 0 0 evs = true) :
    ∃ app', deliverAll app evs = some app' ∧
      0 ≤ app'.queuedUploads ∧ 0 ≤ app'.queuedDownloads :=
  deliverAll_precededFrom evs app 0 0 hdialog (by simpa using hinit.2.1)
    (by simpa using hinit.1) hpre

/-- C3 amended, at a sample input: an upload still in flight. -/
theorem queued_nonnegative_when_preceded_witness :
    (ready samplePreferences).infoDialog = true ∧ statsInitial (ready samplePreferences) ∧
    precededFrom 0 0 samplePreceded = true ∧
    ∃ app', deliverAll (ready samplePreferences) samplePreceded = some app' ∧
      0 ≤ app'.queuedUploads ∧ 0 ≤ app'.queuedDownloads :=
  ⟨rfl, by decide, by decide,
    queued_nonnegative_when_preceded (ready samplePreferences) samplePreceded rfl
      (by decide) (by decide)⟩

/-! ### The upload queue: lemmas -/

theorem processUploadQueueLoop_eq (env : Env) (node : Node) :
    ∀ (queue : List QString) (app : MegaApplication) (notUploaded : List QString),
      processUploadQueueLoop env node queue app notUploaded =
        ({ app with
            uploadQueue := []
            effects := app.effects ++ dispatchEffects env node.nodehandle queue },
          notUploaded ++ (excludedPaths env queue).map env.fileName) := by
  intro queue
  induction queue with
  | nil => intro app notUploaded; simp [processUploadQueueLoop, dispatchEffects, excludedPaths]
  | cons path queue ih =>
    intro app notUploaded
    by_cases hv : env.verifySyncedFolderLimits path = true
    · simp [processUploadQueueLoop, dispatchEffects, excludedPaths, hv, ih, emit]
    · simp only [Bool.not_eq_true] at hv
      simp [processUploadQueueLoop, dispatchEffects, excludedPaths, hv, ih, emit]

theorem processUploadQueue_folder (env : Env) (app : MegaApplication) (nodeHandle : Handle)
    (node : Node) (hnode : env.getNodeByHandle nodeHandle = some node)
    (hfolder : node.type ≠ .FILENODE) :
    processUploadQueue env app nodeHandle =
      { app with
        uploadQueue := []
        effects := app.effects ++ dispatchEffects env node.nodehandle app.uploadQueue ++
          (expectedWarning env (excludedPaths env app.uploadQueue)).map (infoEffect app) } := by
  unfold processUploadQueue
  simp only [hnode, hfolder, if_false, processUploadQueueLoop_eq, List.nil_append]
  rcases hex : excludedPaths env app.uploadQueue with _ | ⟨p1, _ | ⟨p2, rest⟩⟩
  · simp [expectedWarning]
  · by_cases ht : app.trayIcon = true <;>
      simp [expectedWarning, showInfoMessage, infoEffect, emit, ht]
  · by_cases ht : app.trayIcon = true <;>
      simp [expectedWarning, showInfoMessage, infoEffect, emit, ht]

theorem uploadsOf_append (l1 l2 : List Effect) :
    uploadsOf (l1 ++ l2) = uploadsOf l1 ++ uploadsOf l2 := by
  simp [uploadsOf, List.filterMap_append]

theorem uploadsOf_dispatchEffects (env : Env) (node : Handle) (queue : List QString) :
    uploadsOf (dispatchEffects env node queue) =
      (queue.filter env.verifySyncedFolderLimits).map fun path => (path, node) := by
  induction queue with
  | nil => rfl
  | cons path queue ih =>
    have hstep : ∀ (e : Effect) (l : List Effect), uploadsOf (e :: l) =
        (match e with
          | .upload path node => [(path, node)]
          | _ => []) ++ uploadsOf l := by
      intro e l
      cases e <;> simp [uploadsOf, List.filterMap_cons]
    cases hv : env.verifySyncedFolderLimits path
    · simp only [dispatchEffects, hv, Bool.false_eq_true, if_false]
      rw [hstep, ih]
      simp [hv]
    · simp only [dispatchEffects, hv, if_true]
      rw [hstep, hstep, ih]
      simp [hv]

theorem uploadsOf_infoEffects (app : MegaApplication) (messages : List Text) :
    uploadsOf (messages.map (infoEffect app)) = [] := by
  induction messages with
  | nil => rfl
  | cons m ms ih =>
    simp only [List.map_cons, uploadsOf, List.filterMap_cons] at ih ⊢
    unfold infoEffect
    split_ifs <;> simp [ih]

theorem limitChecksOf_append (l1 l2 : List Effect) :
    limitChecksOf (l1 ++ l2) = limitChecksOf l1 ++ limitChecksOf l2 := by
  simp [limitChecksOf, List.filterMap_append]

theorem tooLargeWarningsOf_append (env : Env) (l1 l2 : List Effect) :
    tooLargeWarningsOf env (l1 ++ l2) =
      tooLargeWarningsOf env l1 ++ tooLargeWarningsOf env l2 := by
  simp [tooLargeWarningsOf, List.filterMap_append]

theorem tooLargeWarningsOf_dispatchEffects (env : Env) (node : Handle)
    (queue : List QString) :
    tooLargeWarningsOf env (dispatchEffects env node queue) = [] := by
  induction queue with
  | nil => rfl
  | cons path queue ih =>
    simp only [tooLargeWarningsOf] at ih
    cases hv : env.verifySyncedFolderLimits path <;>
      simp [dispatchEffects, hv, tooLargeWarningsOf, List.filterMap_cons, ih]

theorem tooLargeWarningsOf_expectedWarning (env : Env) (app : MegaApplication)
    (excluded : List QString) :
    tooLargeWarningsOf env ((expectedWarning env excluded).map (infoEffect app)) =
      expectedWarning env excluded := by
  rcases excluded with _ | ⟨p1, _ | ⟨p2, rest⟩⟩
  · rfl
  · by_cases ht : app.trayIcon = true <;>
      simp [expectedWarning, infoEffect, ht, tooLargeWarningsOf, isTooLarge, tooLargeSingular,
        tooLargePlural, tr, Text.arg]
  · by_cases ht : app.trayIcon = true <;>
      simp [expectedWarning, infoEffect, ht, tooLargeWarningsOf, isTooLarge, tooLargeSingular,
        tooLargePlural, tr, Text.arg]

theorem shellUpload_selecting (env : Env) (app : MegaApplication) (paths : List QString)
    (hsel : app.uploadFolderSelector = true) :
    shellUpload env app paths =
      raiseUploadFolderSelector { app with uploadQueue := app.uploadQueue ++ paths } := by
  simp [shellUpload, hsel]

theorem shellUpload_selecting_all (env : Env) (more : List (List QString)) :
    ∀ (app : MegaApplication), app.uploadFolderSelector = true →
      (more.foldl (shellUpload env) app).uploadFolderSelector = true ∧
      (more.foldl (shellUpload env) app).uploadQueue = app.uploadQueue ++ more.flatten ∧
      uploadsOf (more.foldl (shellUpload env) app).effects = uploadsOf app.effects ∧
      dialogsCreatedOf (more.foldl (shellUpload env) app).effects =
        dialogsCreatedOf app.effects := by
  induction more with
  | nil => intro app h; simp [h]
  | cons paths more ih =>
    intro app h
    have hstep := shellUpload_selecting env app paths h
    have hsel1 : (shellUpload env app paths).uploadFolderSelector = true := by
      rw [hstep]; simpa [raiseUploadFolderSelector, emitAll] using h
    obtain ⟨h1, h2, h3, h4⟩ := ih (shellUpload env app paths) hsel1
    simp only [List.foldl_cons, List.flatten_cons]
    refine ⟨h1, ?_, ?_, ?_⟩
    · rw [h2, hstep]; simp [raiseUploadFolderSelector, emitAll]
    · rw [h3, hstep]; simp [raiseUploadFolderSelector, emitAll, uploadsOf]
    · rw [h4, hstep]; simp [raiseUploadFolderSelector, emitAll, dialogsCreatedOf]

theorem processUploadQueue_submits_to_folder (env : Env) (app : MegaApplication)
    (nodeHandle : Handle) (node : Node)
    (hnode : env.getNodeByHandle nodeHandle = some node) (hfolder : node.type ≠ .FILENODE) :
    uploadsOf (processUploadQueue env app nodeHandle).effects =
      uploadsOf app.effects ++
        (app.uploadQueue.filter env.verifySyncedFolderLimits).map
          (fun path => (path, node.nodehandle)) ∧
    (processUploadQueue env app nodeHandle).uploadQueue = [] ∧
    dialogsCreatedOf (processUploadQueue env app nodeHandle).effects =
      dialogsCreatedOf app.effects := by
  rw [processUploadQueue_folder env app nodeHandle node hnode hfolder]
  refine ⟨?_, rfl, ?_⟩
  · simp only [uploadsOf_append, uploadsOf_dispatchEffects, uploadsOf_infoEffects,
      List.append_nil]
  · simp only [dialogsCreatedOf, List.count_append]
    have h1 : ∀ queue, List.count Effect.newUploadToMegaDialog
        (dispatchEffects env node.nodehandle queue) = 0 := by
      intro queue
      induction queue with
      | nil => rfl
      | cons path queue ih =>
        cases hv : env.verifySyncedFolderLimits path <;>
          simp [dispatchEffects, hv, ih, List.count_cons]
    have h2 : ∀ messages : List Text, List.count Effect.newUploadToMegaDialog
        (messages.map (infoEffect app)) = 0 := by
      intro messages
      rw [List.count_eq_zero]
      intro hmem
      obtain ⟨m, -, hm⟩ := List.mem_map.1 hmem
      unfold infoEffect at hm
      split_ifs at hm
    rw [h1, h2]
    simp

theorem showUploadDialogDone_accepted (env : Env) (app : MegaApplication)
    (result : DialogResult) (node : Node) (haccepted : result.accepted = true)
    (hnode : env.getNodeByHandle result.selectedHandle = some node)
    (hfolder : node.type ≠ .FILENODE) :
    uploadsOf (showUploadDialogDone env app result).effects =
      uploadsOf app.effects ++
        (app.uploadQueue.filter env.verifySyncedFolderLimits).map
          (fun path => (path, node.nodehandle)) ∧
    (showUploadDialogDone env app result).uploadQueue = [] ∧
    (showUploadDialogDone env app result).uploadFolderSelector = false ∧
    dialogsCreatedOf (showUploadDialogDone env app result).effects =
      dialogsCreatedOf app.effects := by
  have hgen : ∀ app3 : MegaApplication, app3.effects = app.effects →
      app3.uploadQueue = app.uploadQueue →
      uploadsOf (emit (processUploadQueue env app3 result.selectedHandle)
          .deleteUploadFolderSelector).effects =
        uploadsOf app.effects ++
          (app.uploadQueue.filter env.verifySyncedFolderLimits).map
            (fun path => (path, node.nodehandle)) ∧
      (emit (processUploadQueue env app3 result.selectedHandle)
          .deleteUploadFolderSelector).uploadQueue = [] ∧
      dialogsCreatedOf (emit (processUploadQueue env app3 result.selectedHandle)
          .deleteUploadFolderSelector).effects = dialogsCreatedOf app.effects := by
    intro app3 he hq
    obtain ⟨h1, h2, h3⟩ :=
      processUploadQueue_submits_to_folder env app3 result.selectedHandle node hnode hfolder
    refine ⟨?_, h2, ?_⟩
    · simp only [emit, uploadsOf_append, h1, he, hq]
      simp [uploadsOf]
    · simp only [emit, dialogsCreatedOf, List.count_append]
      rw [← dialogsCreatedOf, h3, he]
      simp [dialogsCreatedOf]
  unfold showUploadDialogDone
  simp only [haccepted, if_true]
  by_cases hdef : result.isDefaultFolder = true
  · simp only [hdef, if_true]
    obtain ⟨h1, h2, h3⟩ := hgen
      { app with preferences := { app.preferences with uploadFolder := result.selectedHandle } }
      rfl rfl
    exact ⟨h1, h2, trivial, h3⟩
  · simp only [hdef, if_false]
    obtain ⟨h1, h2, h3⟩ := hgen app rfl rfl
    exact ⟨h1, h2, trivial, h3⟩

/-! ### The upload queue: the claims -/

/-- C4: when the handle does not resolve to a node, or resolves to a node of
type file, `processUploadQueue` leaves the upload queue empty and its only
call is the one error message: nothing is submitted to the uploader, no limit
check is made and no warning is shown. -/
theorem processUploadQueue_invalid_destination (env : Env) (app : MegaApplication)
    (nodeHandle : Handle)
    (hinvalid : ∀ node, env.getNodeByHandle nodeHandle = some node → node.type = .FILENODE) :
    (processUploadQueue env app nodeHandle).uploadQueue = [] ∧
    (processUploadQueue env app nodeHandle).effects =
      app.effects ++ [.messageBox .Critical none invalidDestination] ∧
    uploadsOf (processUploadQueue env app nodeHandle).effects = uploadsOf app.effects ∧
    limitChecksOf (processUploadQueue env app nodeHandle).effects =
      limitChecksOf app.effects ∧
    tooLargeWarningsOf env (processUploadQueue env app nodeHandle).effects =
      tooLargeWarningsOf env app.effects := by
  have key : processUploadQueue env app nodeHandle =
      showErrorMessage { app with uploadQueue := [] } invalidDestination none := by
    unfold processUploadQueue
    cases hn : env.getNodeByHandle nodeHandle with
    | none => rfl
    | some node => simp [hinvalid node hn]
  rw [key]
  refine ⟨rfl, rfl, ?_, ?_, ?_⟩
  · simp [showErrorMessage, emit, uploadsOf_append, uploadsOf]
  · simp [showErrorMessage, emit, limitChecksOf_append, limitChecksOf]
  · simp [showErrorMessage, emit, tooLargeWarningsOf_append, tooLargeWarningsOf, isTooLarge,
      invalidDestination, tooLargeSingular, tooLargePlural, tr, Text.arg]

/-- C4, at a sample input: three queued paths and the handle of a file. -/
theorem processUploadQueue_invalid_destination_witness :
    (processUploadQueue sampleEnv sampleQueued 2).uploadQueue = [] ∧
    (processUploadQueue sampleEnv sampleQueued 2).effects =
      sampleQueued.effects ++ [.messageBox .Critical none invalidDestination] ∧
    uploadsOf (processUploadQueue sampleEnv sampleQueued 2).effects =
      uploadsOf sampleQueued.effects ∧
    limitChecksOf (processUploadQueue sampleEnv sampleQueued 2).effects =
      limitChecksOf sampleQueued.effects ∧
    tooLargeWarningsOf sampleEnv (processUploadQueue sampleEnv sampleQueued 2).effects =
      tooLargeWarningsOf sampleEnv sampleQueued.effects :=
  processUploadQueue_invalid_destination sampleEnv sampleQueued 2
    (by intro node hn; cases hn; rfl)

/-- C5: for a handle that resolves to a folder node, `processUploadQueue`
submits to the uploader the queued paths that pass the folder-limit check, in
queue order (the submitted sequence is the queue filtered by the check), each
to that node, and leaves the queue empty. -/
theorem processUploadQueue_submits_compliant (env : Env) (app : MegaApplication)
    (nodeHandle : Handle) (node : Node)
    (hnode : env.getNodeByHandle nodeHandle = some node) (hfolder : node.type ≠ .FILENODE) :
    uploadsOf (processUploadQueue env app nodeHandle).effects =
      uploadsOf app.effects ++
        (app.uploadQueue.filter env.verifySyncedFolderLimits).map
          (fun path => (path, node.nodehandle)) ∧
    (processUploadQueue env app nodeHandle).uploadQueue = [] := by
  obtain ⟨h1, h2, -⟩ := processUploadQueue_submits_to_folder env app nodeHandle node hnode hfolder
  exact ⟨h1, h2⟩

/-- C5, at a sample input: of `/a`, `/big`, `/b` the paths `/a` and `/b` are submitted. -/
theorem processUploadQueue_submits_compliant_witness :
    sampleEnv.getNodeByHandle 1 = some sampleFolder ∧ sampleFolder.type ≠ .FILENODE ∧
    uploadsOf (processUploadQueue sampleEnv sampleQueued 1).effects =
      uploadsOf sampleQueued.effects ++
        (sampleQueued.uploadQueue.filter sampleEnv.verifySyncedFolderLimits).map
          (fun path => (path, sampleFolder.nodehandle)) ∧
    (processUploadQueue sampleEnv sampleQueued 1).uploadQueue = [] :=
  ⟨rfl, by decide,
    processUploadQueue_submits_compliant sampleEnv sampleQueued 1 sampleFolder rfl (by decide)⟩

/-- C6: for a handle that resolves to a folder node, `processUploadQueue` shows
no 'too large' warning when the limit check excluded no path and exactly one
when it excluded some: the singular text with the file name of the excluded
path when it excluded one, the plural text with the number of excluded paths
when it excluded two or more. -/
theorem processUploadQueue_one_warning (env : Env) (app : MegaApplication)
    (nodeHandle : Handle) (node : Node)
    (hnode : env.getNodeByHandle nodeHandle = some node) (hfolder : node.type ≠ .FILENODE) :
    ∃ warnings : List Text,
      tooLargeWarningsOf env (processUploadQueue env app nodeHandle).effects =
        tooLargeWarningsOf env app.effects ++ warnings ∧
      (excludedPaths env app.uploadQueue = [] → warnings = []) ∧
      (excludedPaths env app.uploadQueue ≠ [] → warnings.length = 1) ∧
      (∀ path, excludedPaths env app.uploadQueue = [path] →
        warnings = [tooLargeSingular env (env.fileName path)]) ∧
      (2 ≤ (excludedPaths env app.uploadQueue).length →
        warnings = [tooLargePlural env (excludedPaths env app.uploadQueue).length]) := by
  refine ⟨expectedWarning env (excludedPaths env app.uploadQueue), ?_, ?_, ?_, ?_, ?_⟩
  · rw [processUploadQueue_folder env app nodeHandle node hnode hfolder]
    simp only [tooLargeWarningsOf_append, tooLargeWarningsOf_dispatchEffects,
      tooLargeWarningsOf_expectedWarning, List.append_nil]
  · intro h; rw [h]; rfl
  · intro h
    rcases hex : excludedPaths env app.uploadQueue with _ | ⟨p1, _ | ⟨p2, rest⟩⟩
    · exact absurd hex h
    · rfl
    · rfl
  · intro path h; rw [h]; rfl
  · intro h
    rcases hex : excludedPaths env app.uploadQueue with _ | ⟨p1, _ | ⟨p2, rest⟩⟩
    · rw [hex] at h; simp at h
    · rw [hex] at h; simp at h
    · rfl

/-- C6, at a sample input: of `/a`, `/big`, `/b` the path `/big` is excluded. -/
theorem processUploadQueue_one_warning_witness :
    sampleEnv.getNodeByHandle 1 = some sampleFolder ∧ sampleFolder.type ≠ .FILENODE ∧
    excludedPaths sampleEnv sampleQueued.uploadQueue = [some "/big"] ∧
    ∃ warnings : List Text,
      tooLargeWarningsOf sampleEnv (processUploadQueue sampleEnv sampleQueued 1).effects =
        tooLargeWarningsOf sampleEnv sampleQueued.effects ++ warnings ∧
      (excludedPaths sampleEnv sampleQueued.uploadQueue = [] → warnings = []) ∧
      (excludedPaths sampleEnv sampleQueued.uploadQueue ≠ [] → warnings.length = 1) ∧
      (∀ path, excludedPaths sampleEnv sampleQueued.uploadQueue = [path] →
        warnings = [tooLargeSingular sampleEnv (sampleEnv.fileName path)]) ∧
      (2 ≤ (excludedPaths sampleEnv sampleQueued.uploadQueue).length →
        warnings =
          [tooLargePlural sampleEnv (excludedPaths sampleEnv sampleQueued.uploadQueue).length]) :=
  ⟨rfl, by decide, by decide,
    processUploadQueue_one_warning sampleEnv sampleQueued 1 sampleFolder rfl (by decide)⟩

/-- C7: while a destination dialog is open (`uploadFolderSelector` non-null),
`shellUpload` appends the paths, in order, to the end of the queue, brings the
open dialog to the front and returns: it creates no dialog and submits
nothing.  When the dialog is then accepted, after any further calls of
`shellUpload`, with a handle that resolves to a folder node, every path in the
queue that passes the limit check is submitted to that node, in queue order,
the appended ones included; the queue is then empty and the dialog is gone. -/
theorem shellUpload_while_selecting (env : Env) (app : MegaApplication)
    (paths : List QString) (more : List (List QString)) (result : DialogResult) (node : Node)
    (hsel : app.uploadFolderSelector = true) (haccepted : result.accepted = true)
    (hnode : env.getNodeByHandle result.selectedHandle = some node)
    (hfolder : node.type ≠ .FILENODE) :
    (shellUpload env app paths).uploadQueue = app.uploadQueue ++ paths ∧
    (shellUpload env app paths).uploadFolderSelector = true ∧
    (shellUpload env app paths).effects =
      app.effects ++ [.selectorShowMinimized, .selectorSetWindowStateActive,
        .selectorShowNormal, .selectorRaise, .selectorActivateWindow] ∧
    dialogsCreatedOf (shellUpload env app paths).effects = dialogsCreatedOf app.effects ∧
    uploadsOf (shellUpload env app paths).effects = uploadsOf app.effects ∧
    uploadsOf (showUploadDialogDone env
        (more.foldl (shellUpload env) (shellUpload env app paths)) result).effects =
      uploadsOf app.effects ++
        ((app.uploadQueue ++ paths ++ more.flatten).filter env.verifySyncedFolderLimits).map
          (fun path => (path, node.nodehandle)) ∧
    (showUploadDialogDone env
        (more.foldl (shellUpload env) (shellUpload env app paths)) result).uploadQueue = [] ∧
    (showUploadDialogDone env
        (more.foldl (shellUpload env) (shellUpload env app paths)) result).uploadFolderSelector
      = false ∧
    dialogsCreatedOf (showUploadDialogDone env
        (more.foldl (shellUpload env) (shellUpload env app paths)) result).effects =
      dialogsCreatedOf app.effects := by
  have hstep := shellUpload_selecting env app paths hsel
  have hq1 : (shellUpload env app paths).uploadQueue = app.uploadQueue ++ paths := by
    rw [hstep]; rfl
  have hs1 : (shellUpload env app paths).uploadFolderSelector = true := by
    rw [hstep]; exact hsel
  have he1 : (shellUpload env app paths).effects =
      app.effects ++ [.selectorShowMinimized, .selectorSetWindowStateActive,
        .selectorShowNormal, .selectorRaise, .selectorActivateWindow] := by
    rw [hstep]; rfl
  have hd1 : dialogsCreatedOf (shellUpload env app paths).effects =
      dialogsCreatedOf app.effects := by
    rw [he1]; simp [dialogsCreatedOf]
  have hu1 : uploadsOf (shellUpload env app paths).effects = uploadsOf app.effects := by
    rw [he1]; simp [uploadsOf]
  obtain ⟨-, hq2, hu2, hd2⟩ := shellUpload_selecting_all env more (shellUpload env app paths) hs1
  obtain ⟨h1, h2, h3, h4⟩ := showUploadDialogDone_accepted env
    (more.foldl (shellUpload env) (shellUpload env app paths)) result node haccepted hnode
    hfolder
  refine ⟨hq1, hs1, he1, hd1, hu1, ?_, h2, h3, ?_⟩
  · rw [h1, hu2, hu1, hq2, hq1]
  · rw [h4, hd2, hd1]

/-- C7, at a sample input: `/a` is queued, `/big` and `/b` arrive while the
dialog is open, and the dialog is accepted with the folder of handle 1. -/
theorem shellUpload_while_selecting_witness :
    sampleSelecting.uploadFolderSelector = true ∧
    sampleEnv.getNodeByHandle 1 = some sampleFolder ∧ sampleFolder.type ≠ .FILENODE ∧
    uploadsOf (showUploadDialogDone sampleEnv
        (([] : List (List QString)).foldl (shellUpload sampleEnv)
          (shellUpload sampleEnv sampleSelecting [some "/big", some "/b"]))
        ⟨true, 1, false⟩).effects = [(some "/a", 1), (some "/b", 1)] ∧
    (shellUpload sampleEnv sampleSelecting [some "/big", some "/b"]).uploadQueue =
      sampleSelecting.uploadQueue ++ [some "/big", some "/b"] :=
  ⟨rfl, rfl, by decide,
    (shellUpload_while_selecting sampleEnv sampleSelecting [some "/big", some "/b"] []
      ⟨true, 1, false⟩ sampleFolder rfl rfl rfl (by decide)).2.2.2.2.2.1,
    (shellUpload_while_selecting sampleEnv sampleSelecting [some "/big", some "/b"] []
      ⟨true, 1, false⟩ sampleFolder rfl rfl rfl (by decide)).1⟩

/-! ### Node updates -/

theorem onNodesUpdateLoop_untagged (nodes : List Node) :
    ∀ (app : MegaApplication) (externalNodes : Bool), (∀ node ∈ nodes, node.tag = 0) →
      onNodesUpdateLoop nodes app externalNodes =
        (app, externalNodes || nodes.any fun node => !node.removed && !node.syncdeleted) := by
  induction nodes with
  | nil => intro app ext _; simp [onNodesUpdateLoop]
  | cons node nodes ih =>
    intro app ext h
    have h0 : node.tag = 0 := h node (List.mem_cons_self _ _)
    have hrest : ∀ n ∈ nodes, n.tag = 0 := fun n hn => h n (List.mem_cons_of_mem _ hn)
    simp only [onNodesUpdateLoop, onNodesUpdateNode, h0, ne_eq, not_true_eq_false, false_and,
      and_false, if_false, true_and]
    rw [ih _ _ hrest]
    cases hr : node.removed <;> cases hs : node.syncdeleted <;> simp [hr, hs]

/-- C8: while logged in, a batch of one node that has a non-zero tag, is a
file, is neither removed nor syncdeleted and has no local node, with the tag
registered for the path `p` in `uploadLocalPaths`, makes exactly three calls:
one local-change notification for `p`, one recent-file entry with the path
`p`, and the refresh of the dialog; there is no 'new files' notification. -/
theorem onNodesUpdate_registered_upload (app : MegaApplication) (node : Node) (p : String)
    (hdialog : app.infoDialog = true) (htag : node.tag ≠ 0) (hfile : node.type = .FILENODE)
    (hremoved : node.removed = false) (hdeleted : node.syncdeleted = false)
    (hlocal : node.localnode = none)
    (hregistered : app.uploadLocalPaths node.tag = some (some p)) :
    (onNodesUpdate app (some [node])).effects =
      app.effects ++ [.notifyItemChange (some p),
        .addRecentFile node.displayname node.nodehandle (some p), .updateDialog] ∧
    recentFilesOf (onNodesUpdate app (some [node])).effects =
      recentFilesOf app.effects ++ [(node.nodehandle, some p)] ∧
    itemChangesOf (onNodesUpdate app (some [node])).effects =
      itemChangesOf app.effects ++ [some p] ∧
    newFilesNotificationsOf (onNodesUpdate app (some [node])).effects =
      newFilesNotificationsOf app.effects := by
  have key : (onNodesUpdate app (some [node])).effects =
      app.effects ++ [.notifyItemChange (some p),
        .addRecentFile node.displayname node.nodehandle (some p), .updateDialog] := by
    simp [onNodesUpdate, onNodesUpdateLoop, onNodesUpdateNode, hdialog, htag, hfile, hremoved,
      hdeleted, hlocal, hregistered, emit]
  refine ⟨key, ?_, ?_, ?_⟩
  · rw [key]; simp [recentFilesOf, List.filterMap_append]
  · rw [key]; simp [itemChangesOf, List.filterMap_append]
  · rw [key]; simp [newFilesNotificationsOf, List.countP_append, List.countP_cons]

/-- C8, at the sample input of the spec: tag 7 registered for `/local/x.txt`. -/
theorem onNodesUpdate_registered_upload_witness :
    sampleRegistered.infoDialog = true ∧
    sampleRegistered.uploadLocalPaths sampleUploaded.tag = some (some "/local/x.txt") ∧
    recentFilesOf (onNodesUpdate sampleRegistered (some [sampleUploaded])).effects =
      recentFilesOf sampleRegistered.effects ++ [(sampleUploaded.nodehandle, some "/local/x.txt")] ∧
    itemChangesOf (onNodesUpdate sampleRegistered (some [sampleUploaded])).effects =
      itemChangesOf sampleRegistered.effects ++ [some "/local/x.txt"] :=
  ⟨rfl, by decide,
    (onNodesUpdate_registered_upload sampleRegistered sampleUploaded "/local/x.txt" rfl
      (by decide) rfl rfl rfl rfl (by decide)).2.1,
    (onNodesUpdate_registered_upload sampleRegistered sampleUploaded "/local/x.txt" rfl
      (by decide) rfl rfl rfl rfl (by decide)).2.2.1⟩

/-- C9, as stated, fails: with the notifications switched off in the
preferences, a batch of two nodes without a tag, neither removed nor
syncdeleted, handled while logged in, shows no 'new or updated files'
notification. -/
theorem untagged_batch_counterexample :
    sampleMuted.infoDialog = true ∧
    (∀ node ∈ sampleExternalBatch, node.tag = 0) ∧
    (∃ node ∈ sampleExternalBatch, node.removed = false ∧ node.syncdeleted = false) ∧
    newFilesNotificationsOf (onNodesUpdate sampleMuted (some sampleExternalBatch)).effects = 0 ∧
    (onNodesUpdate sampleMuted (some sampleExternalBatch)).effects = [.updateDialog] := by
  decide

/-- C9, amended: while logged in, a batch in which every node has tag 0 and at
least one node is neither removed nor syncdeleted adds no recent-file entry
and issues no local-change notification, and the 'new or updated files'
notification is shown exactly once when the notifications are switched on in
the preferences (and the tray icon exists), and not at all otherwise, however
many such nodes the batch has. -/
theorem onNodesUpdate_untagged_batch (app : MegaApplication) (nodes : List Node)
    (hdialog : app.infoDialog = true) (htags : ∀ node ∈ nodes, node.tag = 0)
    (hlive : ∃ node ∈ nodes, node.removed = false ∧ node.syncdeleted = false) :
    (onNodesUpdate app (some nodes)).effects =
      app.effects ++ [.updateDialog] ++
        (if app.preferences.showNotifications = true ∧ app.trayIcon = true then
          [.trayMessage .Information none newFilesText (some 8000)]
        else []) ∧
    recentFilesOf (onNodesUpdate app (some nodes)).effects = recentFilesOf app.effects ∧
    itemChangesOf (onNodesUpdate app (some nodes)).effects = itemChangesOf app.effects ∧
    newFilesNotificationsOf (onNodesUpdate app (some nodes)).effects =
      newFilesNotificationsOf app.effects +
        (if app.preferences.showNotifications = true ∧ app.trayIcon = true then 1 else 0) := by
  have hany : (nodes.any fun node => !node.removed && !node.syncdeleted) = true := by
    obtain ⟨node, hmem, hr, hs⟩ := hlive
    exact List.any_eq_true.2 ⟨node, hmem, by simp [hr, hs]⟩
  have key : (onNodesUpdate app (some nodes)).effects =
      app.effects ++ [.updateDialog] ++
        (if app.preferences.showNotifications = true ∧ app.trayIcon = true then
          [.trayMessage .Information none newFilesText (some 8000)]
        else []) := by
    simp only [onNodesUpdate, hdialog, onNodesUpdateLoop_untagged nodes app false htags, hany]
    cases hn : app.preferences.showNotifications <;> cases ht : app.trayIcon <;>
      simp [showNotificationMessage, emit, hn, ht]
  refine ⟨key, ?_, ?_, ?_⟩
  · rw [key]; split_ifs <;> simp [recentFilesOf, List.filterMap_append]
  · rw [key]; split_ifs <;> simp [itemChangesOf, List.filterMap_append]
  · rw [key]
    split_ifs <;> simp [newFilesNotificationsOf, List.countP_append, List.countP_cons]

/-- C9 amended, at a sample input: two nodes without a tag, notifications on. -/
theorem onNodesUpdate_untagged_batch_witness :
    (ready samplePreferences).infoDialog = true ∧
    (∀ node ∈ sampleExternalBatch, node.tag = 0) ∧
    (∃ node ∈ sampleExternalBatch, node.removed = false ∧ node.syncdeleted = false) ∧
    newFilesNotificationsOf
        (onNodesUpdate (ready samplePreferences) (some sampleExternalBatch)).effects =
      newFilesNotificationsOf (ready samplePreferences).effects +
        (if (ready samplePreferences).preferences.showNotifications = true ∧
            (ready samplePreferences).trayIcon = true then 1 else 0) :=
  ⟨rfl, by decide, by decide,
    (onNodesUpdate_untagged_batch (ready samplePreferences) sampleExternalBatch rfl
      (by decide) (by decide)).2.2.2⟩

/-! ### The configured syncs -/

theorem eraseIdx_length_append (done : List SyncedFolder) (folder : SyncedFolder)
    (rest : List SyncedFolder) :
    (done ++ folder :: rest).eraseIdx done.length = done ++ rest := by
  induction done with
  | nil => rfl
  | cons d done ih => simp [List.eraseIdx, ih]

theorem getElem_length_append (done : List SyncedFolder) (folder : SyncedFolder)
    (rest : List SyncedFolder) (h : done.length < (done ++ folder :: rest).length) :
    (done ++ folder :: rest)[done.length] = folder := by
  induction done with
  | nil => rfl
  | cons d done ih =>
    simp only [List.cons_append, List.length_cons, List.getElem_cons_succ]
    exact ih _

theorem startSyncsLoop_eq (env : Env) (rest : List SyncedFolder) :
    ∀ (done : List SyncedFolder) (app : MegaApplication),
      app.preferences.syncedFolders = done ++ rest →
      startSyncsLoop env done.length app =
        { app with
          preferences :=
            { app.preferences with syncedFolders := done ++ rest.filter (syncValid env) }
          effects := app.effects ++ rest.map (syncEffect env) } := by
  induction rest with
  | nil =>
    intro done app h
    rw [startSyncsLoop]
    simp only [List.append_nil] at h
    simp [h]
    rw [← h]
  | cons folder rest ih =>
    intro done app h
    rw [startSyncsLoop]
    have hlt : done.length < app.preferences.syncedFolders.length := by
      rw [h]; simp
    have hget : app.preferences.syncedFolders[done.length] = folder := by
      simp only [h]
      exact getElem_length_append done folder rest _
    simp only [hlt, dif_pos, hget]
    cases hnode : env.getNodeByHandle folder.megaFolderHandle with
    | none =>
      simp only
      rw [ih done _ (by simp [removeSyncedFolder, showErrorMessage, emit, h,
        eraseIdx_length_append])]
      simp [removeSyncedFolder, showErrorMessage, emit, syncValid, syncCheck, syncEffect,
        disabledText, hnode, h, eraseIdx_length_append]
    | some node =>
      simp only
      by_cases htrash : (env.getParentNode node).map (fun n => n.nodehandle) =
          env.getRubbishNode.map (fun n => n.nodehandle)
      · simp only [htrash, if_true]
        rw [ih done _ (by simp [removeSyncedFolder, showErrorMessage, emit, h,
          eraseIdx_length_append])]
        simp [removeSyncedFolder, showErrorMessage, emit, syncValid, syncCheck, syncEffect,
          disabledText, hnode, htrash, h, eraseIdx_length_append]
      · simp only [htrash, if_false]
        cases hdir : env.isDir folder.localFolder
        · simp only [Bool.not_false, if_true]
          rw [ih done _ (by simp [removeSyncedFolder, showErrorMessage, emit, h,
            eraseIdx_length_append])]
          simp [removeSyncedFolder, showErrorMessage, emit, syncValid, syncCheck, syncEffect,
            disabledText, hnode, htrash, hdir, h, eraseIdx_length_append]
        · simp only [Bool.not_true, Bool.false_eq_true, if_false]
          have hlen : done.length + 1 = (done ++ [folder]).length := by simp
          rw [hlen, ih (done ++ [folder]) _ (by simp [emit, h])]
          simp [emit, syncValid, syncCheck, syncEffect, hnode, htrash, hdir, h]

theorem syncCheck_cases (env : Env) (folder : SyncedFolder) :
    (∃ cause, syncCheck env folder = .error cause) ∨ (∃ node, syncCheck env folder = .ok node) := by
  cases syncCheck env folder <;> simp

theorem syncFoldersOf_syncEffects (env : Env) (folders : List SyncedFolder) :
    syncFoldersOf (folders.map (syncEffect env)) = expectedSyncs env folders := by
  induction folders with
  | nil => rfl
  | cons folder folders ih =>
    simp only [syncFoldersOf, expectedSyncs, List.map_cons, List.filterMap_cons] at ih ⊢
    rw [ih]
    unfold syncEffect
    cases syncCheck env folder <;> rfl

theorem errorMessagesOf_syncEffects (env : Env) (folders : List SyncedFolder) :
    errorMessagesOf (folders.map (syncEffect env)) = expectedDisablements env folders := by
  induction folders with
  | nil => rfl
  | cons folder folders ih =>
    simp only [errorMessagesOf, expectedDisablements, List.map_cons, List.filterMap_cons] at ih ⊢
    rw [ih]
    unfold syncEffect
    cases syncCheck env folder <;> rfl

/-- C10: with no active sync beforehand, `startSyncs` returns and leaves as
configuration the original list without its invalid pairs, the valid pairs in
their order; a pair is valid exactly when its remote node resolves, the parent
of that node is not the rubbish node and the local path is an existing
directory.  Its calls are, pair by pair in order, `syncFolder` for a valid
pair and one disablement message for an invalid pair, for the first failing
cause; for a missing local directory that is the message 'because the local
folder doesn't exist'. -/
theorem startSyncs_disables_invalid (env : Env) (app : MegaApplication)
    (hidle : app.activeSyncs = []) :
    (startSyncs env app).preferences.syncedFolders =
      app.preferences.syncedFolders.filter (syncValid env) ∧
    (startSyncs env app).effects =
      app.effects ++ app.preferences.syncedFolders.map (syncEffect env) ∧
    syncFoldersOf (startSyncs env app).effects =
      syncFoldersOf app.effects ++ expectedSyncs env app.preferences.syncedFolders ∧
    errorMessagesOf (startSyncs env app).effects =
      errorMessagesOf app.effects ++ expectedDisablements env app.preferences.syncedFolders ∧
    (expectedSyncs env app.preferences.syncedFolders).length =
      (app.preferences.syncedFolders.filter (syncValid env)).length ∧
    (expectedDisablements env app.preferences.syncedFolders).length =
      (app.preferences.syncedFolders.filter (fun folder => !syncValid env folder)).length ∧
    (∀ folder, syncValid env folder = true ↔
      ∃ node, env.getNodeByHandle folder.megaFolderHandle = some node ∧
        (env.getParentNode node).map (fun n => n.nodehandle) ≠
          env.getRubbishNode.map (fun n => n.nodehandle) ∧
        env.isDir folder.localFolder = true) ∧
    (∀ folder node, env.getNodeByHandle folder.megaFolderHandle = some node →
      (env.getParentNode node).map (fun n => n.nodehandle) ≠
        env.getRubbishNode.map (fun n => n.nodehandle) →
      env.isDir folder.localFolder = false →
      syncEffect env folder =
        .messageBox .Critical none
          ((tr ("Your sync \"%1\" has been disabled\n" ++
            "because the local folder doesn't exist")).arg (.str folder.syncName))) := by
  have key : startSyncs env app =
      { app with
        preferences :=
          { app.preferences with
            syncedFolders := app.preferences.syncedFolders.filter (syncValid env) }
        effects := app.effects ++ app.preferences.syncedFolders.map (syncEffect env) } := by
    unfold startSyncs
    have hlen : ¬ (app.activeSyncs.length ≠ 0) := by simp [hidle]
    rw [if_neg hlen]
    have := startSyncsLoop_eq env app.preferences.syncedFolders [] app rfl
    simpa using this
  refine ⟨by rw [key], by rw [key], ?_, ?_, ?_, ?_, ?_, ?_⟩
  · rw [key]
    simp only [syncFoldersOf, List.filterMap_append]
    rw [← syncFoldersOf, ← syncFoldersOf, syncFoldersOf_syncEffects]
  · rw [key]
    simp only [errorMessagesOf, List.filterMap_append]
    rw [← errorMessagesOf, ← errorMessagesOf, errorMessagesOf_syncEffects]
  · generalize app.preferences.syncedFolders = folders
    induction folders with
    | nil => rfl
    | cons folder folders ih =>
      obtain ⟨cause, hc⟩ | ⟨node, hc⟩ := syncCheck_cases env folder <;>
        simp only [expectedSyncs, List.filterMap_cons, List.filter_cons, syncValid, hc] at ih ⊢ <;>
        simp [ih]
  · generalize app.preferences.syncedFolders = folders
    induction folders with
    | nil => rfl
    | cons folder folders ih =>
      obtain ⟨cause, hc⟩ | ⟨node, hc⟩ := syncCheck_cases env folder <;>
        simp only [expectedDisablements, List.filterMap_cons, List.filter_cons, syncValid, hc] at ih ⊢ <;>
        simp [ih]
  · intro folder
    unfold syncValid syncCheck
    cases hnode : env.getNodeByHandle folder.megaFolderHandle with
    | none => simp
    | some node =>
      by_cases htrash : (env.getParentNode node).map (fun n => n.nodehandle) =
          env.getRubbishNode.map (fun n => n.nodehandle)
      · simp [htrash]
      · cases hdir : env.isDir folder.localFolder <;> simp [htrash]
  · intro folder node hnode htrash hdir
    simp [syncEffect, syncCheck, hnode, htrash, hdir, disabledText, localMissingText]

/-- C10, at a sample input: of four configured pairs the first is valid, the
second has no local directory, the third is in the rubbish bin and the remote
folder of the fourth is gone. -/
theorem startSyncs_disables_invalid_witness :
    sampleConfigured.activeSyncs = [] ∧
    (startSyncs sampleEnv sampleConfigured).preferences.syncedFolders =
      sampleConfigured.preferences.syncedFolders.filter (syncValid sampleEnv) ∧
    sampleConfigured.preferences.syncedFolders.filter (syncValid sampleEnv) =
      [⟨some "/sync/a", 1, some "A"⟩] ∧
    errorMessagesOf (startSyncs sampleEnv sampleConfigured).effects =
      errorMessagesOf sampleConfigured.effects ++
        expectedDisablements sampleEnv sampleConfigured.preferences.syncedFolders ∧
    expectedDisablements sampleEnv sampleConfigured.preferences.syncedFolders =
      [localMissingText (some "B"), inTrashText (some "C"), remoteMissingText (some "D")] :=
  ⟨rfl, (startSyncs_disables_invalid sampleEnv sampleConfigured rfl).1, by decide,
    (startSyncs_disables_invalid sampleEnv sampleConfigured rfl).2.2.2.1, by decide⟩

/-! ### The tag registry and the statistics of one event -/

theorem onTransferStart_some (app : MegaApplication) (t : MegaTransfer)
    (h : app.infoDialog = true) :
    ∃ app', onTransferStart app t = some app' ∧
      app'.uploadLocalPaths = app.uploadLocalPaths ∧
      statsOf t.type app' =
        ⟨(statsOf t.type app).activeCount + 1, (statsOf t.type app).lifetimeCount + 1,
          (statsOf t.type app).totalBytesExpected + t.totalBytes,
          (statsOf t.type app).totalBytesTransferred, 0⟩ ∧
      statsOf (otherDirection t.type) app' = statsOf (otherDirection t.type) app := by
  unfold onTransferStart
  cases ht : t.type <;> by_cases hp : app.paused = true <;>
    simp [ht, hp, h, emit, emitAll, showSyncingIcon, statsOf, otherDirection]

theorem onTransferUpdate_some (app : MegaApplication) (t : MegaTransfer)
    (h : app.infoDialog = true) :
    ∃ app', onTransferUpdate app t = some app' ∧
      app'.uploadLocalPaths = app.uploadLocalPaths ∧
      statsOf t.type app' =
        ⟨(statsOf t.type app).activeCount, (statsOf t.type app).lifetimeCount,
          (statsOf t.type app).totalBytesExpected,
          (statsOf t.type app).totalBytesTransferred + t.deltaSize, t.speed⟩ ∧
      statsOf (otherDirection t.type) app' = statsOf (otherDirection t.type) app := by
  unfold onTransferUpdate
  cases ht : t.type <;>
    simp [ht, h, emit, emitAll, statsOf, otherDirection]

theorem onTransferFinish_some (app : MegaApplication) (t : MegaTransfer) (e : MegaError)
    (h : app.infoDialog = true) :
    ∃ app', onTransferFinish app t e = some app' ∧
      app'.uploadLocalPaths =
        (if t.type = .TYPE_UPLOAD ∧ e.errorCode = API_OK then
          Function.update app.uploadLocalPaths t.tag (some t.path)
        else app.uploadLocalPaths) ∧
      (app'.queuedDownloads ≠ 0 ∨ app'.queuedUploads ≠ 0 →
        statsOf t.type app' =
          ⟨(statsOf t.type app).activeCount - 1, (statsOf t.type app).lifetimeCount,
            (statsOf t.type app).totalBytesExpected,
            (statsOf t.type app).totalBytesTransferred + t.deltaSize, t.speed⟩ ∧
        statsOf (otherDirection t.type) app' = statsOf (otherDirection t.type) app) := by
  unfold onTransferFinish
  cases ht : t.type <;> by_cases he : e.errorCode = API_OK <;>
    simp only [ht, he, h, emit, emitAll, showSyncedIcon, if_true, if_false] <;>
    split_ifs <;> simp_all [statsOf, otherDirection]

theorem onNodesUpdateNode_registry (app : MegaApplication) (externalNodes : Bool)
    (node : Node) :
    (onNodesUpdateNode app externalNodes node).1.uploadLocalPaths = app.uploadLocalPaths := by
  unfold onNodesUpdateNode
  simp only
  split_ifs <;> simp [emit]

theorem onNodesUpdateLoop_registry (nodes : List Node) :
    ∀ (app : MegaApplication) (externalNodes : Bool),
      (onNodesUpdateLoop nodes app externalNodes).1.uploadLocalPaths =
        app.uploadLocalPaths := by
  induction nodes with
  | nil => intro app ext; rfl
  | cons node nodes ih =>
    intro app ext
    simp only [onNodesUpdateLoop]
    rw [ih, onNodesUpdateNode_registry]

theorem onNodesUpdate_registry (app : MegaApplication) (nodes : Option (List Node)) :
    (onNodesUpdate app nodes).uploadLocalPaths = app.uploadLocalPaths := by
  unfold onNodesUpdate
  by_cases hd : app.infoDialog = true
  · cases nodes with
    | none => simp [hd]
    | some nodes =>
      have hloop := onNodesUpdateLoop_registry nodes app false
      simp only [hd, Bool.not_true, Bool.false_eq_true, if_false]
      unfold showNotificationMessage
      split_ifs <;> simpa [emit] using hloop
  · simp [hd]

/-- C11: `uploadLocalPaths` is written only by the finish of a successful
upload and loses no entry.  With the information dialog present,
`onTransferFinish` for an upload with the code `API_OK`, the tag `t` and the
path `p` returns with the registry of before updated at `t` to `p`;
for a download or another code it returns with the registry unchanged;
`onTransferStart` and `onTransferUpdate` return with the registry unchanged,
and `onNodesUpdate` leaves it unchanged for every batch.  So every tag that
had an entry before a callback has one after it. -/
theorem registry_written_by_finished_upload (app : MegaApplication) (t : MegaTransfer)
    (e : MegaError) (nodes : Option (List Node)) (hdialog : app.infoDialog = true) :
    (t.type = .TYPE_UPLOAD → e.errorCode = API_OK →
      ∃ app', onTransferFinish app t e = some app' ∧
        app'.uploadLocalPaths = Function.update app.uploadLocalPaths t.tag (some t.path) ∧
        app'.uploadLocalPaths t.tag = some t.path ∧
        ∀ tag, tag ≠ t.tag → app'.uploadLocalPaths tag = app.uploadLocalPaths tag) ∧
    (t.type = .TYPE_DOWNLOAD ∨ e.errorCode ≠ API_OK →
      ∃ app', onTransferFinish app t e = some app' ∧
        app'.uploadLocalPaths = app.uploadLocalPaths) ∧
    (∃ app', onTransferStart app t = some app' ∧
      app'.uploadLocalPaths = app.uploadLocalPaths) ∧
    (∃ app', onTransferUpdate app t = some app' ∧
      app'.uploadLocalPaths = app.uploadLocalPaths) ∧
    (onNodesUpdate app nodes).uploadLocalPaths = app.uploadLocalPaths ∧
    (∀ (ev : TransferEvent) (tag : Int), (app.uploadLocalPaths tag).isSome = true →
      ∃ app', deliver app ev = some app' ∧ (app'.uploadLocalPaths tag).isSome = true) := by
  refine ⟨?_, ?_, ?_, ?_, onNodesUpdate_registry app nodes, ?_⟩
  · intro hup hok
    obtain ⟨app', h1, h2, -⟩ := onTransferFinish_some app t e hdialog
    rw [if_pos ⟨hup, hok⟩] at h2
    refine ⟨app', h1, h2, ?_, ?_⟩
    · rw [h2]; simp
    · intro tag hne
      rw [h2]; simp [Function.update, hne]
  · intro hcase
    obtain ⟨app', h1, h2, -⟩ := onTransferFinish_some app t e hdialog
    have hnot : ¬ (t.type = .TYPE_UPLOAD ∧ e.errorCode = API_OK) := by
      rintro ⟨hup, hok⟩
      rcases hcase with hdown | hne
      · rw [hup] at hdown; cases hdown
      · exact hne hok
    rw [if_neg hnot] at h2
    exact ⟨app', h1, h2⟩
  · obtain ⟨app', h1, h2, -⟩ := onTransferStart_some app t hdialog
    exact ⟨app', h1, h2⟩
  · obtain ⟨app', h1, h2, -⟩ := onTransferUpdate_some app t hdialog
    exact ⟨app', h1, h2⟩
  · intro ev tag hsome
    cases ev with
    | start t1 =>
      obtain ⟨app', h1, h2, -⟩ := onTransferStart_some app t1 hdialog
      exact ⟨app', h1, by rw [h2]; exact hsome⟩
    | update t1 =>
      obtain ⟨app', h1, h2, -⟩ := onTransferUpdate_some app t1 hdialog
      exact ⟨app', h1, by rw [h2]; exact hsome⟩
    | finish t1 e1 =>
      obtain ⟨app', h1, h2, -⟩ := onTransferFinish_some app t1 e1 hdialog
      refine ⟨app', h1, ?_⟩
      rw [h2]
      split_ifs
      · by_cases htag : tag = t1.tag
        · subst htag; simp
        · simpa [Function.update, htag] using hsome
      · exact hsome

/-- C11, at a sample input: the upload with tag 7 finishes with `API_OK`. -/
theorem registry_written_by_finished_upload_witness :
    (ready samplePreferences).infoDialog = true ∧
    sampleUpload.type = .TYPE_UPLOAD ∧ (⟨API_OK⟩ : MegaError).errorCode = API_OK ∧
    ∃ app', onTransferFinish (ready samplePreferences) sampleUpload ⟨API_OK⟩ = some app' ∧
      app'.uploadLocalPaths =
        Function.update (ready samplePreferences).uploadLocalPaths sampleUpload.tag
          (some sampleUpload.path) ∧
      app'.uploadLocalPaths sampleUpload.tag = some sampleUpload.path ∧
      ∀ tag, tag ≠ sampleUpload.tag →
        app'.uploadLocalPaths tag = (ready samplePreferences).uploadLocalPaths tag :=
  ⟨rfl, rfl, rfl,
    (registry_written_by_finished_upload (ready samplePreferences) sampleUpload ⟨API_OK⟩ none
      rfl).1 rfl rfl⟩

/-- C12: with the information dialog present, `onTransferStart` for a transfer
of direction d returns, and afterwards the active count and the lifetime
count of d are one greater, the expected bytes of d have grown by the total
bytes of the transfer, the speed of d is 0, the transferred bytes of d are
unchanged, and the five fields of the other direction are unchanged. -/
theorem onTransferStart_statistics (app : MegaApplication) (t : MegaTransfer)
    (hdialog : app.infoDialog = true) :
    ∃ app', onTransferStart app t = some app' ∧
      (statsOf t.type app').activeCount = (statsOf t.type app).activeCount + 1 ∧
      (statsOf t.type app').lifetimeCount = (statsOf t.type app).lifetimeCount + 1 ∧
      (statsOf t.type app').totalBytesExpected =
        (statsOf t.type app).totalBytesExpected + t.totalBytes ∧
      (statsOf t.type app').instantaneousSpeed = 0 ∧
      (statsOf t.type app').totalBytesTransferred =
        (statsOf t.type app).totalBytesTransferred ∧
      statsOf (otherDirection t.type) app' = statsOf (otherDirection t.type) app := by
  obtain ⟨app', h1, -, h3, h4⟩ := onTransferStart_some app t hdialog
  refine ⟨app', h1, ?_, ?_, ?_, ?_, ?_, h4⟩ <;> rw [h3]

/-- C12, at a sample input: a download of 30 bytes starts while an upload is in flight. -/
theorem onTransferStart_statistics_witness :
    sampleBusy.infoDialog = true ∧
    ∃ app', onTransferStart sampleBusy sampleDownload = some app' ∧
      (statsOf sampleDownload.type app').activeCount =
        (statsOf sampleDownload.type sampleBusy).activeCount + 1 ∧
      (statsOf sampleDownload.type app').lifetimeCount =
        (statsOf sampleDownload.type sampleBusy).lifetimeCount + 1 ∧
      (statsOf sampleDownload.type app').totalBytesExpected =
        (statsOf sampleDownload.type sampleBusy).totalBytesExpected +
          sampleDownload.totalBytes ∧
      (statsOf sampleDownload.type app').instantaneousSpeed = 0 ∧
      (statsOf sampleDownload.type app').totalBytesTransferred =
        (statsOf sampleDownload.type sampleBusy).totalBytesTransferred ∧
      statsOf (otherDirection sampleDownload.type) app' =
        statsOf (otherDirection sampleDownload.type) sampleBusy :=
  ⟨rfl, onTransferStart_statistics sampleBusy sampleDownload rfl⟩

/-- C13: with the information dialog present, `onTransferUpdate` for a
transfer of direction d returns, and so does `onTransferFinish`; after the
update, and after a finish that leaves a transfer of either direction queued,
the transferred bytes of d have grown by the byte delta of the event, the
speed of d is the speed of the event, the lifetime count and the expected
bytes of d are unchanged, the active count of d is unchanged for the update
and one less for the finish, and the five fields of the other direction are
unchanged. -/
theorem update_and_finish_statistics (app : MegaApplication) (t : MegaTransfer)
    (e : MegaError) (hdialog : app.infoDialog = true) :
    (∃ app', onTransferUpdate app t = some app' ∧
      statsOf t.type app' =
        ⟨(statsOf t.type app).activeCount, (statsOf t.type app).lifetimeCount,
          (statsOf t.type app).totalBytesExpected,
          (statsOf t.type app).totalBytesTransferred + t.deltaSize, t.speed⟩ ∧
      statsOf (otherDirection t.type) app' = statsOf (otherDirection t.type) app) ∧
    (∃ app', onTransferFinish app t e = some app' ∧
      (app'.queuedDownloads ≠ 0 ∨ app'.queuedUploads ≠ 0 →
        statsOf t.type app' =
          ⟨(statsOf t.type app).activeCount - 1, (statsOf t.type app).lifetimeCount,
            (statsOf t.type app).totalBytesExpected,
            (statsOf t.type app).totalBytesTransferred + t.deltaSize, t.speed⟩ ∧
        statsOf (otherDirection t.type) app' = statsOf (otherDirection t.type) app)) := by
  obtain ⟨app1, h1, -, h3, h4⟩ := onTransferUpdate_some app t hdialog
  obtain ⟨app2, k1, -, k3⟩ := onTransferFinish_some app t e hdialog
  exact ⟨⟨app1, h1, h3, h4⟩, ⟨app2, k1, k3⟩⟩

/-- C13, at a sample input: with one upload and two downloads queued, a
download finishes and leaves two transfers queued. -/
theorem update_and_finish_statistics_witness :
    sampleBusy.infoDialog = true ∧
    ∃ app', onTransferFinish sampleBusy sampleDownload ⟨API_OK⟩ = some app' ∧
      (app'.queuedDownloads ≠ 0 ∨ app'.queuedUploads ≠ 0) ∧
      statsOf .TYPE_DOWNLOAD app' = ⟨1, 3, 90, 60, 2⟩ ∧
      statsOf .TYPE_UPLOAD app' = ⟨1, 1, 100, 0, 0⟩ := by
  refine ⟨rfl, ?_⟩
  obtain ⟨app', h1, h2⟩ :=
    (update_and_finish_statistics sampleBusy sampleDownload ⟨API_OK⟩ rfl).2
  have hq : app'.queuedDownloads ≠ 0 ∨ app'.queuedUploads ≠ 0 := by
    have hval : onTransferFinish sampleBusy sampleDownload ⟨API_OK⟩ =
        some (Option.get (onTransferFinish sampleBusy sampleDownload ⟨API_OK⟩) rfl) := by
      simp
    rw [hval] at h1
    cases h1
    exact Or.inl (by decide)
  obtain ⟨h3, h4⟩ := h2 hq
  exact ⟨app', h1, hq, h3, h4⟩

/-! ### The restart -/

/-- C14, as stated, fails: after `onUpdateCompleted` has requested and
scheduled the restart, `rebootApplication` called with one upload queued
launches no process and does not exit: it returns without any call. -/
theorem reboot_counterexample :
    sampleBusyReboot.reboot = true ∧ sampleBusyReboot.queuedUploads = 1 ∧
    restartsOf (rebootApplication sampleBusyReboot).effects = 0 ∧
    exitsOf (rebootApplication sampleBusyReboot).effects = 0 ∧
    (rebootApplication sampleBusyReboot).effects = sampleBusyReboot.effects := by
  decide

/-- C14, amended: `onUpdateCompleted` sets `reboot` and schedules
`rebootApplication` after 10000 ms; `rebootApplication`, when it fires with
`queuedDownloads` and `queuedUploads` both 0, stops the shell dispatcher,
launches the new process and exits; when a transfer of either direction is
queued it returns without any call and leaves the application as it is. -/
theorem reboot_only_when_idle (app : MegaApplication) :
    (onUpdateCompleted app).reboot = true ∧
    (onUpdateCompleted app).effects =
      app.effects ++ [.singleShot 10000 "rebootApplication()"] ∧
    (app.queuedDownloads = 0 ∧ app.queuedUploads = 0 →
      (rebootApplication app).effects =
        app.effects ++ [.session .stopShellDispatcher, .session .startDetached,
          .session .applicationExit] ∧
      restartsOf (rebootApplication app).effects = restartsOf app.effects + 1 ∧
      exitsOf (rebootApplication app).effects = exitsOf app.effects + 1) ∧
    (app.queuedDownloads ≠ 0 ∨ app.queuedUploads ≠ 0 → rebootApplication app = app) := by
  refine ⟨rfl, rfl, ?_, ?_⟩
  · rintro ⟨hd, hu⟩
    have key : (rebootApplication app).effects =
        app.effects ++ [.session .stopShellDispatcher, .session .startDetached,
          .session .applicationExit] := by
      simp [rebootApplication, hd, hu, emit, stopUpdateTask]
    refine ⟨key, ?_, ?_⟩
    · rw [key]; simp [restartsOf, List.count_append, List.count_cons]
    · rw [key]; simp [exitsOf, List.count_append, List.count_cons]
  · intro h
    unfold rebootApplication
    rw [if_pos h]

/-- C14 amended, at a sample input: the restart fires with no transfer queued. -/
theorem reboot_only_when_idle_witness :
    ((onUpdateCompleted (ready samplePreferences)).queuedDownloads = 0 ∧
      (onUpdateCompleted (ready samplePreferences)).queuedUploads = 0) ∧
    restartsOf (rebootApplication (onUpdateCompleted (ready samplePreferences))).effects =
      restartsOf (onUpdateCompleted (ready samplePreferences)).effects + 1 ∧
    exitsOf (rebootApplication (onUpdateCompleted (ready samplePreferences))).effects =
      exitsOf (onUpdateCompleted (ready samplePreferences)).effects + 1 :=
  ⟨⟨rfl, rfl⟩,
    ((reboot_only_when_idle (onUpdateCompleted (ready samplePreferences))).2.2.1
      ⟨rfl, rfl⟩).2⟩

/-! ### The session -/

theorem count_session_syncEffects (env : Env) (call : SessionEffect)
    (folders : List SyncedFolder) :
    List.count (Effect.session call) (folders.map (syncEffect env)) = 0 := by
  rw [List.count_eq_zero]
  intro hmem
  obtain ⟨folder, -, hf⟩ := List.mem_map.1 hmem
  obtain ⟨cause, hc⟩ | ⟨node, hc⟩ := syncCheck_cases env folder <;>
    simp [syncEffect, hc] at hf

theorem count_session_deleteSyncs (call : SessionEffect) (syncs : List Nat) :
    List.count (Effect.session call) (syncs.map Effect.deleteSync) = 0 := by
  rw [List.count_eq_zero]
  intro hmem
  obtain ⟨sync, -, hf⟩ := List.mem_map.1 hmem
  cases hf

theorem stopSyncs_session (app : MegaApplication) (call : SessionEffect) :
    List.count (Effect.session call) (stopSyncs app).effects =
      List.count (Effect.session call) app.effects ∧
    (stopSyncs app).preferences = app.preferences := by
  simp [stopSyncs, emitAll, List.count_append, count_session_deleteSyncs]

theorem startSyncs_session (env : Env) (app : MegaApplication) (call : SessionEffect) :
    List.count (Effect.session call) (startSyncs env app).effects =
      List.count (Effect.session call) app.effects ∧
    (startSyncs env app).preferences.logged = app.preferences.logged := by
  have hloop : ∀ app0 : MegaApplication,
      List.count (Effect.session call) (startSyncsLoop env 0 app0).effects =
        List.count (Effect.session call) app0.effects ∧
      (startSyncsLoop env 0 app0).preferences.logged = app0.preferences.logged := by
    intro app0
    have h := startSyncsLoop_eq env app0.preferences.syncedFolders [] app0 rfl
    simp only [List.length_nil] at h
    rw [h]
    simp [List.count_append, count_session_syncEffects]
  unfold startSyncs
  by_cases hlen : app.activeSyncs.length ≠ 0
  · rw [if_pos hlen]
    obtain ⟨h1, h2⟩ := hloop (stopSyncs app)
    obtain ⟨h3, h4⟩ := stopSyncs_session app call
    exact ⟨by rw [h1, h3], by rw [h2, h4]⟩
  · rw [if_neg hlen]
    exact hloop app

set_option maxHeartbeats 1600000 in
theorem loggedIn_eq (env : Env) (app : MegaApplication) :
    ∃ pre : MegaApplication,
      loggedIn env app =
        emit { emit (emit (startSyncs env pre) (.session .enableTrayIcon))
            (.session .startShellDispatcher) with httpServer := true }
          (.session (.newHTTPServer 2973)) ∧
      loggedInRunsOf pre.effects = loggedInRunsOf app.effects + 1 ∧
      unlinkRunsOf pre.effects = unlinkRunsOf app.effects ∧
      initRunsOf pre.effects = initRunsOf app.effects ∧
      pre.preferences = app.preferences := by
  refine ⟨setUploadLimit
      (emit (emit { showNotificationMessage (createTrayIcon app) runningText none with
        infoDialog := true } (.session .newInfoDialog)) (.session .getAccountDetails))
      (emit (emit { showNotificationMessage (createTrayIcon app) runningText none with
        infoDialog := true } (.session .newInfoDialog))
        (.session .getAccountDetails)).accountPreferences.uploadLimitKB, rfl, ?_, ?_, ?_, ?_⟩
  · simp only [loggedInRunsOf, setUploadLimit, showNotificationMessage, createTrayIcon, emit,
      emitAll]
    split_ifs <;> simp [List.count_append, List.count_cons]
  · simp only [unlinkRunsOf, setUploadLimit, showNotificationMessage, createTrayIcon, emit,
      emitAll]
    split_ifs <;> simp [List.count_append, List.count_cons]
  · simp only [initRunsOf, setUploadLimit, showNotificationMessage, createTrayIcon, emit,
      emitAll]
    split_ifs <;> simp [List.count_append, List.count_cons]
  · simp only [setUploadLimit, showNotificationMessage, createTrayIcon, emit, emitAll]
    split_ifs <;> rfl

theorem loggedIn_runs (env : Env) (app : MegaApplication) :
    loggedInRunsOf (loggedIn env app).effects = loggedInRunsOf app.effects + 1 ∧
    unlinkRunsOf (loggedIn env app).effects = unlinkRunsOf app.effects ∧
    initRunsOf (loggedIn env app).effects = initRunsOf app.effects ∧
    (loggedIn env app).preferences.logged = app.preferences.logged := by
  obtain ⟨pre, heq, h1, h2, h3, h4⟩ := loggedIn_eq env app
  have heff : (loggedIn env app).effects =
      (startSyncs env pre).effects ++ [.session .enableTrayIcon,
        .session .startShellDispatcher, .session (.newHTTPServer 2973)] := by
    rw [heq]; simp [emit]
  have hlog : (loggedIn env app).preferences.logged = (startSyncs env pre).preferences.logged := by
    rw [heq]; rfl
  refine ⟨?_, ?_, ?_, ?_⟩
  · rw [heff, loggedInRunsOf, List.count_append, (startSyncs_session env pre .newInfoDialog).1,
      ← loggedInRunsOf, h1]
    simp [List.count_cons]
  · rw [heff, unlinkRunsOf, List.count_append, (startSyncs_session env pre .logout).1,
      ← unlinkRunsOf, h2]
    simp [List.count_cons]
  · rw [heff, initRunsOf, List.count_append, (startSyncs_session env pre .trayIconShow).1,
      ← initRunsOf, h3]
    simp [List.count_cons]
  · rw [hlog, (startSyncs_session env pre .logout).2, h4]

theorem unlink_runs (app : MegaApplication) :
    loggedInRunsOf (unlink app).effects = loggedInRunsOf app.effects ∧
    unlinkRunsOf (unlink app).effects = unlinkRunsOf app.effects + 1 ∧
    initRunsOf (unlink app).effects = initRunsOf app.effects := by
  simp [unlink, stopSyncs, emit, emitAll, loggedInRunsOf, unlinkRunsOf, initRunsOf,
    List.count_append, List.count_cons, count_session_deleteSyncs]

theorem init_after_logout (env : Env) (app : MegaApplication) (wizard : WizardResult)
    (hw : wizard.preferences.logged = true) :
    ∃ appW : MegaApplication,
      init env (emit (preferencesUnlink app) (.session .deleteInfoDialog)) wizard =
        .returned (loggedIn env appW) ∧
      appW.preferences = wizard.preferences ∧
      appW.effects = app.effects ++ [.session .deleteInfoDialog,
        .setIcon "://images/login_ico.ico", .session .setContextMenuNull,
        .session .trayIconShow, .session .newSetupWizard, .session .setupWizardExec] := by
  refine ⟨{ emit (emit { emitAll (emit (preferencesUnlink app) (.session .deleteInfoDialog))
      [.setIcon "://images/login_ico.ico", .session .setContextMenuNull,
        .session .trayIconShow] with setupWizard := true } (.session .newSetupWizard))
      (.session .setupWizardExec) with
      preferences := wizard.preferences
      accountPreferences := wizard.accountPreferences }, ?_, rfl, ?_⟩
  · simp [init, preferencesUnlink, emit, emitAll, hw]
  · simp [preferencesUnlink, emit, emitAll]

theorem logout_falls_through (env : Env) (app : MegaApplication) (request : MegaRequest)
    (e : MegaError) (wizard : WizardResult) (htype : request.type = .TYPE_LOGOUT)
    (hlogged : app.preferences.logged = true) (hw : wizard.preferences.logged = true) :
    ∃ app', onRequestFinish env app request e wizard = .returned app' ∧
      initRunsOf app'.effects = initRunsOf app.effects + 1 ∧
      (e.errorCode = API_OK →
        loggedInRunsOf app'.effects = loggedInRunsOf app.effects + 2 ∧
        unlinkRunsOf app'.effects = unlinkRunsOf app.effects) ∧
      (e.errorCode ≠ API_OK →
        loggedInRunsOf app'.effects = loggedInRunsOf app.effects + 1 ∧
        unlinkRunsOf app'.effects = unlinkRunsOf app.effects + 1) := by
  obtain ⟨appW, hinit, hprefs, heff⟩ := init_after_logout env app wizard hw
  have hstep : onRequestFinish env app request e wizard =
      onFetchNodesFinish env (loggedIn env appW) e := by
    unfold onRequestFinish
    simp only [htype, hlogged, if_true, hinit]
  obtain ⟨l1, u1, i1, p1⟩ := loggedIn_runs env appW
  have hl0 : loggedInRunsOf appW.effects = loggedInRunsOf app.effects := by
    rw [heff]; simp [loggedInRunsOf, List.count_append, List.count_cons]
  have hu0 : unlinkRunsOf appW.effects = unlinkRunsOf app.effects := by
    rw [heff]; simp [unlinkRunsOf, List.count_append, List.count_cons]
  have hi0 : initRunsOf appW.effects = initRunsOf app.effects + 1 := by
    rw [heff]; simp [initRunsOf, List.count_append, List.count_cons]
  have hlog : (loggedIn env appW).preferences.logged = true := by
    rw [p1, hprefs, hw]
  by_cases hok : e.errorCode = API_OK
  · obtain ⟨l2, u2, i2, -⟩ := loggedIn_runs env (loggedIn env appW)
    refine ⟨loggedIn env (loggedIn env appW), ?_, ?_, ?_, ?_⟩
    · rw [hstep]; simp [onFetchNodesFinish, hlog, hok]
    · rw [i2, i1, hi0]
    · intro _; exact ⟨by rw [l2, l1, hl0], by rw [u2, u1, hu0]⟩
    · intro hne; exact absurd hok hne
  · obtain ⟨l2, u2, i2⟩ := unlink_runs (loggedIn env appW)
    refine ⟨unlink (loggedIn env appW), ?_, ?_, ?_, ?_⟩
    · rw [hstep]; simp [onFetchNodesFinish, hlog, hok]
    · rw [i2, i1, hi0]
    · intro h; exact absurd h hok
    · intro _; exact ⟨by rw [l2, l1, hl0], by rw [u2, u1, hu0]⟩

theorem onAccountDetailsFinish_ready (app : MegaApplication) (request : MegaRequest)
    (e : MegaError) (hdialog : app.infoDialog = true) :
    (e.errorCode = API_OK →
      ∃ app', onAccountDetailsFinish app request e = .returned app' ∧
        cachedFigures app' = request.accountDetails) ∧
    (e.errorCode ≠ API_OK → onAccountDetailsFinish app request e = .returned app) := by
  constructor
  · intro hok
    have hres : onAccountDetailsFinish app request e =
        .returned (emit { app with accountPreferences :=
          { app.accountPreferences with
            accountType := request.accountDetails.pro_level
            totalStorage := request.accountDetails.storage_max
            usedStorage := request.accountDetails.storage_used
            totalBandwidth := request.accountDetails.transfer_max
            usedBandwidth := request.accountDetails.transfer_own_used } }
          (.session (.setUsage request.accountDetails.storage_max
            request.accountDetails.storage_used))) := by
      simp [onAccountDetailsFinish, hok, hdialog]
    exact ⟨_, hres, rfl⟩
  · intro hne
    simp [onAccountDetailsFinish, hne]

/-- C15, the code at its failing input: an account-details reply with the code
`API_OK` handled before `loggedIn` has run (the information dialog is null)
is not discarded: the handler writes the figures of the reply into the
preferences, where they replace the cached ones, and then calls through the
null `infoDialog`; it does not return. -/
theorem account_details_before_ready :
    sampleAwaitingFetchNodes.infoDialog = false ∧
    cachedFigures sampleAwaitingFetchNodes = ⟨0, 0, 0, 0, 0⟩ ∧
    (onRequestFinish sampleEnv sampleAwaitingFetchNodes sampleAccountReply ⟨API_OK⟩
      sampleWizard).hasReturned = false ∧
    cachedFigures (onRequestFinish sampleEnv sampleAwaitingFetchNodes sampleAccountReply
      ⟨API_OK⟩ sampleWizard).app = ⟨0, 50, 7, 10, 1⟩ := by
  decide

/-- C16, the code at its failing input: a logout reply handled with the
logged-in flag set, after which the user logs in again in the setup wizard.
`init` runs once and runs `loggedIn`; then control falls from the case
`TYPE_LOGOUT` into the case `TYPE_FETCH_NODES`: with the code `API_OK`
`loggedIn` runs a second time, with another code `unlink` runs. -/
theorem logout_reply_falls_through :
    (ready samplePreferences).preferences.logged = true ∧
    (∃ app', onRequestFinish sampleEnv (ready samplePreferences) sampleLogoutReply
        ⟨API_OK⟩ sampleWizard = .returned app' ∧
      initRunsOf app'.effects = 1 ∧ loggedInRunsOf app'.effects = 2 ∧
      unlinkRunsOf app'.effects = 0) ∧
    (∃ app', onRequestFinish sampleEnv (ready samplePreferences) sampleLogoutReply
        sampleFailure sampleWizard = .returned app' ∧
      initRunsOf app'.effects = 1 ∧ loggedInRunsOf app'.effects = 1 ∧
      unlinkRunsOf app'.effects = 1) := by
  refine ⟨rfl, ?_, ?_⟩
  · obtain ⟨app', h1, h2, h3, -⟩ := logout_falls_through sampleEnv (ready samplePreferences)
      sampleLogoutReply ⟨API_OK⟩ sampleWizard rfl rfl rfl
    obtain ⟨h4, h5⟩ := h3 rfl
    exact ⟨app', h1, h2, h4, h5⟩
  · obtain ⟨app', h1, h2, -, h3⟩ := logout_falls_through sampleEnv (ready samplePreferences)
      sampleLogoutReply sampleFailure sampleWizard rfl rfl rfl
    obtain ⟨h4, h5⟩ := h3 (by decide)
    exact ⟨app', h1, h2, h4, h5⟩

end MEGASync
